import Mathlib

/-!
Verification development for the falling-sand cellular automaton
(crate `falling-sand-bevy`).  The simulation core lives in `src/cell.rs`
(the module wired into `lib.rs`); `src/grid.rs` is a newer variant of the
same engine that additionally handles an Acid material whose cell-level
definitions are not part of the sources.  Both per-tick engines are
embedded below; randomness (traversal order, coin flips, range draws) is
injected explicitly, machine integers are modelled as `Nat` with wrapping
where the source uses `u8` arithmetic, and the `todo!()` arm of the engine
is modelled as tick failure (`Option`).
-/

/-- Material classes, from `enum Material` in src/cell.rs.  The `u8`
density tag of `Liquid` is modelled as `Nat` (only order comparisons are
performed on it). -/
inductive Material where
  | Powder
  | Solid
  | Liquid (density : Nat)
  | Gas
  | Fire
  | Wind
deriving DecidableEq, Repr

/-- Per-material physical data, from `struct CellData` in src/cell.rs. -/
structure CellData where
  material : Material
  flammable : Bool
  lifespan : Option Nat
  color : Nat × Nat × Nat
deriving DecidableEq, Repr

/-- CellData::falls from src/cell.rs. -/
def CellData.falls (d : CellData) : Bool :=
  match d.material with
  | .Powder | .Solid | .Liquid _ => true
  | .Gas | .Fire | .Wind => false

/-- CellData::slides from src/cell.rs. -/
def CellData.slides (d : CellData) : Bool :=
  match d.material with
  | .Powder | .Liquid _ => true
  | .Solid | .Gas | .Fire | .Wind => false

/-- Cell identifiers, from `enum CellId` in src/cell.rs. -/
inductive CellId where
  | Sand
  | Stone
  | Wood
  | Water
  | Oil
  | Oxygen
  | Fire
  | Wind
deriving DecidableEq, Repr

/-- The material catalog, from `CellId::data` in src/cell.rs. -/
def CellId.data : CellId → CellData
  | .Sand => { material := .Powder, flammable := false, lifespan := none, color := (194, 178, 128) }
  | .Stone => { material := .Solid, flammable := false, lifespan := none, color := (83, 86, 91) }
  | .Wood => { material := .Solid, flammable := true, lifespan := none, color := (164, 116, 73) }
  | .Water => { material := .Liquid 1, flammable := false, lifespan := none, color := (30, 144, 255) }
  | .Oil => { material := .Liquid 0, flammable := true, lifespan := none, color := (59, 49, 49) }
  | .Oxygen => { material := .Gas, flammable := true, lifespan := none, color := (187, 198, 213) }
  | .Fire => { material := .Fire, flammable := false, lifespan := some 20, color := (226, 88, 34) }
  | .Wind => { material := .Wind, flammable := false, lifespan := some 50, color := (255, 255, 255) }

/-- A grid slot value, from `struct Cell` in src/cell.rs (`life` is a `u8`
lifespan counter, modelled as `Nat`). -/
structure Cell where
  id : CellId
  life : Option Nat
deriving DecidableEq, Repr

/-- CellData::sinks_under from src/cell.rs. -/
def CellData.sinks_under (d : CellData) (other : Option Cell) : Bool :=
  match other with
  | some o =>
    match d.material, (CellId.data o.id).material with
    | .Powder, .Liquid _ => true
    | .Solid, .Liquid _ => true
    | .Liquid a, .Liquid b => decide (b < a)
    | .Powder, .Gas => true
    | .Solid, .Gas => true
    | .Liquid _, .Gas => true
    | _, _ => false
  | none => true

/-- Grid width constant from src/cell.rs. -/
def GRID_WIDTH : Nat := 320

/-- Grid height constant from src/cell.rs. -/
def GRID_HEIGHT : Nat := 180

/-- The grid: total map from coordinates to optional cells (the source
uses a `Vec<Vec<Option<Cell>>>` of fixed size 320 x 180, only indexed
in bounds). -/
def Grid : Type := Nat × Nat → Option Cell

/-- Write one slot of a grid. -/
def Grid.set (g : Grid) (p : Nat × Nat) (v : Option Cell) : Grid :=
  fun q => if q = p then v else g q

/-- The all-empty grid (initial state built in `setup`). -/
def Grid.empty : Grid := fun _ => none

/-- Injected randomness: the source draws from `thread_rng`; every draw is
modelled as consuming one value from an explicit stream (an exhausted
stream yields 0). -/
def Rng : Type := List Nat

/-- Draw one raw value from the stream. -/
def Rng.next (r : Rng) : Nat × Rng :=
  match r with
  | [] => (0, [])
  | n :: rest => (n, rest)

/-- Model of `rng.gen::<bool>()`. -/
def Rng.genBool (r : Rng) : Bool × Rng :=
  let (n, r2) := r.next
  (decide (n % 2 = 1), r2)

/-- Model of `rng.gen_range(lo..=hi)` for integer ranges. -/
def Rng.genRange (lo hi : Int) (r : Rng) : Int × Rng :=
  let (n, r2) := r.next
  (lo + Int.ofNat (n % (hi - lo + 1).toNat), r2)

/-- Model of the comparison `rng.gen::<f32>() < chance` where `chance` is
0.55 or 0.10: one draw reduced to a percentile in `0..100`. -/
def Rng.genPercent (r : Rng) : Nat × Rng :=
  let (n, r2) := r.next
  (n % 100, r2)

/-- Model of `SliceRandom::choose`: no draw is consumed on an empty
slice, one uniform index draw otherwise. -/
def Rng.choose {α : Type} (l : List α) (r : Rng) : Option α × Rng :=
  if l.isEmpty then (none, r)
  else
    let (n, r2) := r.next
    (l.get? (n % l.length), r2)

/-- Rust `Ord::clamp` on integers (precondition lo <= hi as in the
source uses). -/
def clampInt (v lo hi : Int) : Int := max lo (min v hi)

/-- The 4-neighbourhood helper `adjacent` from src/cell.rs (same element
order as the source pushes). -/
def adjacent (W H x y : Nat) : List (Nat × Nat) :=
  (if 0 < x then [(x - 1, y)] else []) ++
  (if x < W - 1 then [(x + 1, y)] else []) ++
  (if 0 < y then [(x, y - 1)] else []) ++
  (if y < H - 1 then [(x, y + 1)] else [])

/-- The in-loop lifespan decrement `*life -= 1` (a wrapping `u8`
decrement applied to the local copy of the cell). -/
def decLife (c : Cell) : Cell :=
  match c.life with
  | some l => { c with life := some ((l + 255) % 256) }
  | none => c

/-- The flame-spread loop of the `Material::Fire` arm in src/cell.rs
`tick_grid`: for each flammable neighbour, ignite one randomly chosen
open slot adjacent to it, then convert the neighbour itself with
probability 0.55 (liquid) or 0.10 (otherwise).  `fireCell` is the local
(decremented) copy of the processed fire cell. -/
def fireSpreadLoop (W H : Nat) (old : Grid) (fireCell : Cell) :
    List (Nat × Nat) → Grid → Rng → Grid × Rng
  | [], g, r => (g, r)
  | (nx, ny) :: rest, g, r =>
    let openSlots := (adjacent W H nx ny).filter
      (fun q => (old q).isNone && (g q).isNone)
    let (pick, r1) := Rng.choose openSlots r
    let g1 := match pick with
      | some q => g.set q (some ⟨fireCell.id, (CellId.data fireCell.id).lifespan⟩)
      | none => g
    -- chance from the material of the (occupied) flammable neighbour
    let chance : Nat := match old (nx, ny) with
      | some c =>
        match (CellId.data c.id).material with
        | .Liquid _ => 55
        | _ => 10
      | none => 10  -- unreachable: the neighbour list only holds occupied slots
    let (m, r2) := Rng.genPercent r1
    let g2 := if m < chance then
        g1.set (nx, ny) (some ⟨fireCell.id, (CellId.data fireCell.id).lifespan⟩)
      else g1
    fireSpreadLoop W H old fireCell rest g2 r2

/-- The `Extinguish fire` guard of `tick_grid` in src/cell.rs: the slot
below holds a Fire-material cell and the processed cell falls. -/
def fireBelow (old : Grid) (data : CellData) (x y : Nat) : Bool :=
  match old (x, y + 1) with
  | some c => (CellId.data c.id).material == .Fire && data.falls
  | none => false

/-- The `Float` rule of `tick_grid` in src/cell.rs (fires only when
y > 0, the slot above is occupied and that occupant sinks under the
processed cell; then the two cells are swapped in the successor).
`none` means the rule did not fire. -/
def floatRule (old new : Grid) (rng : Rng) (x y : Nat) (cell : Cell) :
    Option (Grid × Rng) :=
  if 0 < y &&
     (old (x, y - 1)).isSome &&
     (match old (x, y - 1) with
      | some a => (CellId.data a.id).sinks_under (some cell)
      | none => false) then
    some (((new.set (x, y) (old (x, y - 1))).set (x, y - 1) (some cell)), rng)
  else none

/-- The `Fall` rule of `tick_grid` in src/cell.rs. -/
def fallRule (old new : Grid) (rng : Rng) (x y : Nat) (cell : Cell) :
    Option (Grid × Rng) :=
  if (CellId.data cell.id).falls && (CellId.data cell.id).sinks_under (old (x, y + 1)) then
    some (((new.set (x, y) (old (x, y + 1))).set (x, y + 1) (some cell)), rng)
  else none

/-- The `Extinguish fire` rule of `tick_grid` in src/cell.rs. -/
def extinguishRule (old new : Grid) (rng : Rng) (x y : Nat) (cell : Cell) :
    Option (Grid × Rng) :=
  if fireBelow old (CellId.data cell.id) x y then
    let new1 := new.set (x, y) none
    some (if !(CellId.data cell.id).flammable then new1.set (x, y + 1) (some cell) else new1,
      rng)
  else none

/-- The `below_left` qualifier of the `Slide down slopes` rule in
src/cell.rs `tick_grid` (the last conjunct is the claimed-slot
comparison of the old and new buffers). -/
def belowLeftOk (old new : Grid) (x y : Nat) (cell : Cell) : Bool :=
  (CellId.data cell.id).slides && 0 < x &&
  (CellId.data cell.id).sinks_under (old (x - 1, y + 1)) &&
  (CellId.data cell.id).sinks_under (old (x - 1, y)) &&
  (old (x - 1, y + 1) == new (x - 1, y + 1))

/-- The `below_right` qualifier of the `Slide down slopes` rule. -/
def belowRightOk (W : Nat) (old new : Grid) (x y : Nat) (cell : Cell) : Bool :=
  (CellId.data cell.id).slides && x < W - 1 &&
  (CellId.data cell.id).sinks_under (old (x + 1, y + 1)) &&
  (CellId.data cell.id).sinks_under (old (x + 1, y)) &&
  (old (x + 1, y + 1) == new (x + 1, y + 1))

/-- The `Slide down slopes` rule of `tick_grid` in src/cell.rs; when both
diagonals qualify a coin flip picks one, so the rule fires exactly when
at least one diagonal qualifies. -/
def slideRule (W : Nat) (old new : Grid) (rng : Rng) (x y : Nat) (cell : Cell) :
    Option (Grid × Rng) :=
  if belowLeftOk old new x y cell && belowRightOk W old new x y cell then
    let (b, r1) := rng.genBool
    if b then
      some (((new.set (x, y) (old (x - 1, y + 1))).set (x - 1, y + 1) (some cell)), r1)
    else
      some (((new.set (x, y) (old (x + 1, y + 1))).set (x + 1, y + 1) (some cell)), r1)
  else if belowLeftOk old new x y cell then
    some (((new.set (x, y) (old (x - 1, y + 1))).set (x - 1, y + 1) (some cell)), rng)
  else if belowRightOk W old new x y cell then
    some (((new.set (x, y) (old (x + 1, y + 1))).set (x + 1, y + 1) (some cell)), rng)
  else none

/-- The left qualifier of the `Fill gaps` behaviour (lateral slot checked
in the in-progress buffer, overhang checked in the snapshot). -/
def gapLeftOk (old new : Grid) (x y : Nat) (cell : Cell) : Bool :=
  0 < x &&
  (CellId.data cell.id).sinks_under (new (x - 1, y)) &&
  (y == 0 || (CellId.data cell.id).sinks_under (old (x - 1, y - 1)))

/-- The right qualifier of the `Fill gaps` behaviour. -/
def gapRightOk (W : Nat) (old new : Grid) (x y : Nat) (cell : Cell) : Bool :=
  x < W - 1 &&
  (CellId.data cell.id).sinks_under (new (x + 1, y)) &&
  (y == 0 || (CellId.data cell.id).sinks_under (old (x + 1, y - 1)))

/-- The `Fill gaps` behaviour of the Liquid arm of `tick_grid` in
src/cell.rs (total: when no side qualifies the cell stays). -/
def gapFill (W : Nat) (old new : Grid) (rng : Rng) (x y : Nat) (cell : Cell) :
    Grid × Rng :=
  if gapLeftOk old new x y cell && gapRightOk W old new x y cell then
    let (b, r1) := rng.genBool
    if b then (((new.set (x, y) (new (x - 1, y))).set (x - 1, y) (some cell)), r1)
    else (((new.set (x, y) (new (x + 1, y))).set (x + 1, y) (some cell)), r1)
  else if gapLeftOk old new x y cell then
    (((new.set (x, y) (new (x - 1, y))).set (x - 1, y) (some cell)), rng)
  else if gapRightOk W old new x y cell then
    (((new.set (x, y) (new (x + 1, y))).set (x + 1, y) (some cell)), rng)
  else (new, rng)

/-- The `Disperse` behaviour of the Gas arm of `tick_grid` in
src/cell.rs. -/
def disperse (W H : Nat) (old new : Grid) (rng : Rng) (x y : Nat) (cell : Cell) :
    Grid × Rng :=
  let (dx, r1) := Rng.genRange (-1) 1 rng
  let (dy, r2) := Rng.genRange (-1) 1 r1
  let nx := (clampInt ((x : Int) + dx) 0 ((W : Int) - 1)).toNat
  let ny := (clampInt ((y : Int) + dy) 0 ((H : Int) - 1)).toNat
  if (old (nx, ny)).isNone && (new (nx, ny)).isNone then
    (((new.set (x, y) none).set (nx, ny) (some cell)), r2)
  else
    (new, r2)

/-- The Fire arm of `tick_grid` in src/cell.rs: `Spread flames` over the
flammable 4-neighbours, then `Rise`. -/
def fireArm (W H : Nat) (old new : Grid) (rng : Rng) (x y : Nat) (cell : Cell) :
    Grid × Rng :=
  let flammables := (adjacent W H x y).filter
    (fun q => (old q).isSome &&
      (match old q with
       | some c => (CellId.data c.id).flammable
       | none => false))
  let (g1, r1) := fireSpreadLoop W H old cell flammables new rng
  -- Rise
  let (dx, r2) := Rng.genRange (-1) 1 r1
  let (dy, r3) := Rng.genRange (-2) 0 r2
  let nx := (clampInt ((x : Int) + dx) 0 ((W : Int) - 1)).toNat
  let ny := (clampInt ((y : Int) + dy) 0 ((H : Int) - 1)).toNat
  let g2 := g1.set (x, y) none
  let g3 := match old (nx, ny) with
    | some c =>
      if (CellId.data c.id).flammable then g2.set (nx, ny) (some cell) else g2
    | none => g2.set (nx, ny) (some cell)
  (g3, r3)

/-- The `match data.material` dispatch at the end of the rule chain of
`tick_grid` in src/cell.rs.  The `Material::Wind => todo!()` arm is a
panic in the source and is modelled as `none` (the tick fails). -/
def materialRule (W H : Nat) (old new : Grid) (rng : Rng) (x y : Nat) (cell : Cell) :
    Option (Grid × Rng) :=
  match (CellId.data cell.id).material with
  | .Powder | .Solid => some (new, rng)
  | .Liquid _ => some (gapFill W old new rng x y cell)
  | .Gas => some (disperse W H old new rng x y cell)
  | .Fire => some (fireArm W H old new rng x y cell)
  | .Wind => none

/-- Processing of one visited coordinate inside `tick_grid` of
src/cell.rs (the body of the `for (x, y) in coords` loop): lifespan
decay on a local copy, then float, then — below the bottom row guard —
fall, extinguish, slide, and the material dispatch, each `continue`
short-circuiting the rest.  `old` is the snapshot read throughout the
tick, the state is the in-progress successor buffer plus the random
stream. -/
def tickStep (W H : Nat) (old : Grid) (st : Grid × Rng) (p : Nat × Nat) :
    Option (Grid × Rng) :=
  let new := st.1
  let rng := st.2
  let x := p.1
  let y := p.2
  match old p with
  | none => some (new, rng)
  | some cell0 =>
    -- lifespan decay on the local copy
    let cell := decLife cell0
    if cell0.life.isSome && cell.life == some 0 then
      some (new.set (x, y) none, rng)
    else
      match floatRule old new rng x y cell with
      | some st2 => some st2
      | none =>
        if y < H - 1 then
          match fallRule old new rng x y cell with
          | some st2 => some st2
          | none =>
            match extinguishRule old new rng x y cell with
            | some st2 => some st2
            | none =>
              match slideRule W old new rng x y cell with
              | some st2 => some st2
              | none => materialRule W H old new rng x y cell
        else
          some (new, rng)

/-- One tick of the grid, from `tick_grid` in src/cell.rs: the successor
buffer starts as a copy of the live grid and every coordinate of the
randomly shuffled `order` list is visited in turn.  A `none` result is
the `todo!()` panic. -/
def tickGrid (W H : Nat) (old : Grid) (order : List (Nat × Nat)) (rng : Rng) :
    Option (Grid × Rng) :=
  order.foldlM (tickStep W H old) (old, rng)

/-- The coordinate enumeration built in `tick_grid` before shuffling
(column-major, exactly as the source `(0..W).map(|x| ...)` flatten). -/
def allCoords (W H : Nat) : List (Nat × Nat) :=
  ((List.range W).map (fun x => (List.range H).map (fun y => (x, y)))).flatten

/-- The occupied slots of a grid, listed in enumeration order.  Used to
state concrete whole-grid facts. -/
def occupiedCells (g : Grid) : List ((Nat × Nat) × Cell) :=
  (allCoords GRID_WIDTH GRID_HEIGHT).filterMap
    (fun p => match g p with
      | some c => some (p, c)
      | none => none)

/-- Placement of one cell, from the brush loop of `spawn_sand` in
src/cell.rs: only an empty slot is written, with the catalog lifespan of
the selected material. -/
def tryPlace (g : Grid) (p : Nat × Nat) (id : CellId) : Grid :=
  if g p = none then g.set p (some ⟨id, (CellId.data id).lifespan⟩) else g

/-- A cell value occurs somewhere in a grid. -/
def cellAppears (g : Grid) (c : Cell) : Prop := ∃ p, g p = some c

/-! Basic lemmas about the embedding. -/

theorem Grid.set_lookup (g : Grid) (p q : Nat × Nat) (v : Option Cell) :
    (g.set p v) q = if q = p then v else g q := rfl

theorem Grid.set_self (g : Grid) (p : Nat × Nat) (v : Option Cell) :
    (g.set p v) p = v := by simp [Grid.set]

theorem Grid.set_ne (g : Grid) (p q : Nat × Nat) (v : Option Cell) (h : q ≠ p) :
    (g.set p v) q = g q := by simp [Grid.set, h]

/-- Visiting a coordinate that is empty in the snapshot changes nothing. -/
theorem tickStep_not_occupied (W H : Nat) (old : Grid) (g : Grid) (r : Rng)
    (p : Nat × Nat) (h : old p = none) : tickStep W H old (g, r) p = some (g, r) := by
  simp [tickStep, h]

/-- Folding the per-coordinate step over a list of snapshot-empty
coordinates changes nothing. -/
theorem foldlM_tickStep_empty (W H : Nat) (old : Grid) (g : Grid) (r : Rng)
    (l : List (Nat × Nat)) (h : ∀ p ∈ l, old p = none) :
    List.foldlM (tickStep W H old) (g, r) l = some (g, r) := by
  induction l generalizing g r with
  | nil => rfl
  | cons a t ih =>
    rw [List.foldlM_cons, tickStep_not_occupied W H old g r a (h a (by simp))]
    exact ih g r (fun p hp => h p (by simp [hp]))

theorem mem_allCoords (W H : Nat) (p : Nat × Nat) :
    p ∈ allCoords W H ↔ p.1 < W ∧ p.2 < H := by
  rcases p with ⟨x, y⟩
  simp only [allCoords, List.mem_flatten, List.mem_map, List.mem_range]
  constructor
  · rintro ⟨l, ⟨a, ha, rfl⟩, hm⟩
    rcases List.mem_map.1 hm with ⟨b, hb, he⟩
    cases he
    exact ⟨ha, List.mem_range.1 hb⟩
  · rintro ⟨hx, hy⟩
    exact ⟨_, ⟨x, hx, rfl⟩, List.mem_map.2 ⟨y, List.mem_range.2 hy, rfl⟩⟩

theorem nodup_allCoords (W H : Nat) : (allCoords W H).Nodup := by
  apply List.nodup_flatten.2
  constructor
  · intro l hl
    rcases List.mem_map.1 hl with ⟨x, _, rfl⟩
    exact (List.nodup_range H).map (fun a b h => by cases h; rfl)
  · rw [List.pairwise_map]
    apply List.Pairwise.imp ?_ (List.pairwise_lt_range W)
    intro a b hab q hqa hqb
    rcases List.mem_map.1 hqa with ⟨y1, _, rfl⟩
    rcases List.mem_map.1 hqb with ⟨y2, _, he⟩
    cases he
    exact absurd rfl (Nat.ne_of_lt hab)

/-- Boolean non-membership test used to build explicit visit orders
(kept as a named function so that statements about filtered coordinate
lists unify syntactically). -/
def notIn (front : List (Nat × Nat)) (p : Nat × Nat) : Bool := !(front.contains p)

/-- Boolean coordinate disequality (named for stable unification). -/
def neCoord (a p : Nat × Nat) : Bool := decide (p ≠ a)

/-- Removing one occurrence of a member of a nodup list, as a filter. -/
theorem perm_cons_filter_ne (l : List (Nat × Nat)) (a : Nat × Nat)
    (hl : l.Nodup) (ha : a ∈ l) : l.Perm (a :: l.filter (neCoord a)) := by
  induction l with
  | nil => cases ha
  | cons b t ih =>
    rcases List.mem_cons.1 ha with h | h
    · subst h
      have h1 : (a :: t).filter (neCoord a) = t := by
        have h0 : neCoord a a = false := by simp [neCoord]
        have h2 : t.filter (neCoord a) = t :=
          List.filter_eq_self.2 (fun p hp => by
            simp only [neCoord, decide_eq_true_eq]
            exact fun e => (List.nodup_cons.1 hl).1 (e ▸ hp))
        rw [List.filter_cons, h0]
        simp [h2]
      rw [h1]
    · have hba : neCoord a b = true := by
        simp only [neCoord, decide_eq_true_eq]
        exact fun e => (List.nodup_cons.1 hl).1 (e ▸ h)
      have h1 : (b :: t).filter (neCoord a) = b :: t.filter (neCoord a) := by
        rw [List.filter_cons, hba]
        simp
      rw [h1]
      exact ((ih (List.nodup_cons.1 hl).2 h).cons b).trans (List.Perm.swap a b _)

/-- Putting a nodup selection of elements in front and keeping the rest
in place is a permutation: used to build explicit shuffled visit orders
that process chosen coordinates first. -/
theorem perm_front_filter (front l : List (Nat × Nat))
    (hl : l.Nodup) (hf : front.Nodup) (hsub : ∀ a ∈ front, a ∈ l) :
    (front ++ l.filter (notIn front)).Perm l := by
  induction front generalizing l with
  | nil =>
    simp only [List.nil_append]
    have h : l.filter (notIn []) = l := List.filter_eq_self.2 (fun a _ => by simp [notIn])
    rw [h]
  | cons a fr ih =>
    have ha : a ∈ l := hsub a (List.mem_cons_self a fr)
    have h1 : l.Perm (a :: l.filter (neCoord a)) := perm_cons_filter_ne l a hl ha
    refine List.Perm.trans ?_ h1.symm
    simp only [List.cons_append]
    apply List.Perm.cons
    have hfe : l.filter (notIn (a :: fr)) = (l.filter (neCoord a)).filter (notIn fr) := by
      rw [List.filter_filter]
      apply List.filter_congr
      intro p _
      by_cases h : p = a <;> simp [notIn, neCoord, h]
    rw [hfe]
    refine ih (l.filter (neCoord a)) (hl.filter _) (List.nodup_cons.1 hf).2 ?_
    intro b hb
    refine List.mem_filter.2 ⟨hsub b (List.mem_cons_of_mem a hb), ?_⟩
    simp only [neCoord, decide_eq_true_eq]
    exact fun e => (List.nodup_cons.1 hf).1 (e ▸ hb)

/-- A fold over any visit order keeps a state that every single step
returns unchanged. -/
theorem foldlM_tickStep_fixed (W H : Nat) (old g : Grid)
    (hstep : ∀ p r, tickStep W H old (g, r) p = some (g, r)) :
    ∀ (l : List (Nat × Nat)) (r : Rng),
      List.foldlM (tickStep W H old) (g, r) l = some (g, r) := by
  intro l
  induction l with
  | nil => intro r; rfl
  | cons a t ih =>
    intro r
    rw [List.foldlM_cons, hstep a r]
    exact ih r

/-- The sinks_under relation exactly as claim C4 (and the spec sentence
of section 4.2) words it, for comparison against the source function:
the claim omits the Liquid-under-Gas row. -/
def claimedSinksUnder (d : CellData) (other : Option Cell) : Bool :=
  match other with
  | none => true
  | some o =>
    match d.material, (CellId.data o.id).material with
    | .Powder, .Liquid _ => true
    | .Solid, .Liquid _ => true
    | .Powder, .Gas => true
    | .Solid, .Gas => true
    | .Liquid a, .Liquid b => decide (b < a)
    | _, _ => false

/-- The sinks_under relation as claim C4 must read to match the source:
the claimed table plus the row making every Liquid sink under Gas. -/
def amendedSinksUnder (d : CellData) (other : Option Cell) : Bool :=
  match other with
  | none => true
  | some o =>
    match d.material, (CellId.data o.id).material with
    | .Powder, .Liquid _ => true
    | .Solid, .Liquid _ => true
    | .Powder, .Gas => true
    | .Solid, .Gas => true
    | .Liquid _, .Gas => true
    | .Liquid a, .Liquid b => decide (b < a)
    | _, _ => false

/-- Claim C4, counterexample: a Liquid (Water) over an occupied Gas
(Oxygen) slot returns true in the source `sinks_under`, while the claim
says every occupied pair other than the listed ones returns false. -/
theorem C4_counterexample :
    CellData.sinks_under (CellId.data CellId.Water) (some ⟨CellId.Oxygen, none⟩) = true ∧
    claimedSinksUnder (CellId.data CellId.Water) (some ⟨CellId.Oxygen, none⟩) = false := by
  constructor <;> rfl

/-- Claim C4 as amended: `sinks_under` returns true exactly when the
slot is empty, Powder/Solid is over Liquid or Gas, a denser Liquid is
over a less dense Liquid, or any Liquid is over a Gas; all other
occupied pairs give false. -/
theorem C4_amended_table :
    ∀ (d : CellData) (other : Option Cell),
      CellData.sinks_under d other = amendedSinksUnder d other := by
  intro d other
  rcases d with ⟨m, f, ls, col⟩
  rcases other with _ | ⟨oid, olife⟩
  · rfl
  · cases m <;> cases oid <;> rfl

/-- Claim C8: placement on an occupied slot is a no-op leaving the grid
unchanged; placement on an empty slot creates exactly one cell carrying
the catalog lifespan of the selected material and modifies no other
slot. -/
theorem C8_try_place (g : Grid) (p : Nat × Nat) (id : CellId) :
    (g p ≠ none → tryPlace g p id = g) ∧
    (g p = none →
      (tryPlace g p id) p = some ⟨id, (CellId.data id).lifespan⟩ ∧
      ∀ q, q ≠ p → (tryPlace g p id) q = g q) := by
  constructor
  · intro h
    simp [tryPlace, h]
  · intro h
    refine ⟨?_, ?_⟩
    · simp [tryPlace, h, Grid.set_self]
    · intro q hq
      simp [tryPlace, h, Grid.set_ne g p q _ hq]

/-- Witness for C8: placing Fire on the empty grid at (7, 9) creates
exactly the catalog Fire cell (lifespan 20) and leaves (3, 3) empty. -/
theorem C8_try_place_witness :
    (tryPlace Grid.empty (7, 9) CellId.Fire) (7, 9) = some ⟨CellId.Fire, some 20⟩ ∧
    (tryPlace Grid.empty (7, 9) CellId.Fire) (3, 3) = none := by
  have h := (C8_try_place Grid.empty (7, 9) CellId.Fire).2 rfl
  exact ⟨h.1, by rw [h.2 (3, 3) (by decide)]; rfl⟩

/-- Claim C5 counterexample configuration: Oil (Liquid 0) directly above
Water (Liquid 1) at the bottom of a stone-walled well, so that neither
sliding nor gap filling can move the pair. -/
def gridC5 : Grid := fun p =>
  if p = (5, 178) then some ⟨CellId.Oil, none⟩
  else if p = (5, 179) then some ⟨CellId.Water, none⟩
  else if p = (4, 178) then some ⟨CellId.Stone, none⟩
  else if p = (4, 179) then some ⟨CellId.Stone, none⟩
  else if p = (6, 178) then some ⟨CellId.Stone, none⟩
  else if p = (6, 179) then some ⟨CellId.Stone, none⟩
  else none

theorem gridC5_step_fixed :
    ∀ p r, tickStep 320 180 gridC5 (gridC5, r) p = some (gridC5, r) := by
  intro p r
  by_cases h1 : p = (5, 178); · subst h1; rfl
  by_cases h2 : p = (5, 179); · subst h2; rfl
  by_cases h3 : p = (4, 178); · subst h3; rfl
  by_cases h4 : p = (4, 179); · subst h4; rfl
  by_cases h5 : p = (6, 178); · subst h5; rfl
  by_cases h6 : p = (6, 179); · subst h6; rfl
  exact tickStep_not_occupied 320 180 gridC5 gridC5 r p (by simp [gridC5, h1, h2, h3, h4, h5, h6])

/-- Claim C5, counterexample: Liquid(0) placed directly above Liquid(1)
is not swapped by a tick — the lighter liquid is already on top, neither
the float nor the fall rule fires, and (walled in) the pair rests: the
whole grid is unchanged after one full tick over every coordinate. -/
theorem C5_counterexample :
    tickGrid 320 180 gridC5 (allCoords 320 180) [] = some (gridC5, []) ∧
    gridC5 (5, 178) = some ⟨CellId.Oil, none⟩ ∧
    gridC5 (5, 179) = some ⟨CellId.Water, none⟩ := by
  refine ⟨?_, rfl, rfl⟩
  exact foldlM_tickStep_fixed 320 180 gridC5 gridC5 gridC5_step_fixed (allCoords 320 180) []

/-- Claim C5 amended configuration: Water (Liquid 1, denser) directly
above Oil (Liquid 0) on the bottom row, nothing else occupied. -/
def gridC5swap : Grid := fun p =>
  if p = (5, 178) then some ⟨CellId.Water, none⟩
  else if p = (5, 179) then some ⟨CellId.Oil, none⟩
  else none

/-- Status predicate for the amended C5: the two liquids are in resolved
order (oil on top of water). -/
def C5resolved (g : Grid) : Prop :=
  g (5, 178) = some ⟨CellId.Oil, none⟩ ∧ g (5, 179) = some ⟨CellId.Water, none⟩

theorem gridC5swap_water_step (g : Grid) (r : Rng) :
    tickStep 320 180 gridC5swap (g, r) (5, 178) =
      some ((g.set (5, 178) (some ⟨CellId.Oil, none⟩)).set (5, 179)
        (some ⟨CellId.Water, none⟩), r) := rfl

theorem gridC5swap_oil_step (g : Grid) (r : Rng) :
    tickStep 320 180 gridC5swap (g, r) (5, 179) =
      some ((g.set (5, 179) (some ⟨CellId.Water, none⟩)).set (5, 178)
        (some ⟨CellId.Oil, none⟩), r) := rfl

theorem gridC5swap_support (p : Nat × Nat) (h1 : p ≠ (5, 178)) (h2 : p ≠ (5, 179)) :
    gridC5swap p = none := by simp [gridC5swap, h1, h2]

theorem C5resolved_preserved :
    ∀ (l : List (Nat × Nat)) (g : Grid) (r : Rng), C5resolved g →
      ∃ g2, List.foldlM (tickStep 320 180 gridC5swap) (g, r) l = some (g2, r) ∧ C5resolved g2 := by
  intro l
  induction l with
  | nil => exact fun g r h => ⟨g, rfl, h⟩
  | cons a t ih =>
    intro g r h
    by_cases h1 : a = (5, 178)
    · subst h1
      rw [List.foldlM_cons, gridC5swap_water_step]
      exact ih _ r ⟨by simp [Grid.set_lookup], by simp [Grid.set_lookup]⟩
    by_cases h2 : a = (5, 179)
    · subst h2
      rw [List.foldlM_cons, gridC5swap_oil_step]
      exact ih _ r ⟨by simp [Grid.set_lookup], by simp [Grid.set_lookup]⟩
    rw [List.foldlM_cons,
      tickStep_not_occupied 320 180 gridC5swap g r a (gridC5swap_support a h1 h2)]
    exact ih g r h

/-- Claim C5 as amended: for two Liquid cells with densities a < b, the
pair resolves in one tick when the denser cell starts on top: Water
(Liquid 1) directly above Oil (Liquid 0) is swapped by one tick under
every visit order that reaches the pair and every random stream (the
fall rule fires from the upper cell and the float rule fires from the
lower cell, committing the same swap); the Liquid(0)-above-Liquid(1)
stack is already resolved and rests. -/
theorem C5_amended (order : List (Nat × Nat)) (r : Rng) (hmem : (5, 178) ∈ order) :
    ∃ g2, tickGrid 320 180 gridC5swap order r = some (g2, r) ∧ C5resolved g2 := by
  unfold tickGrid
  induction order with
  | nil => cases hmem
  | cons a t ih =>
    by_cases h1 : a = (5, 178)
    · subst h1
      rw [List.foldlM_cons, gridC5swap_water_step]
      exact C5resolved_preserved t _ r ⟨by simp [Grid.set_lookup], by simp [Grid.set_lookup]⟩
    by_cases h2 : a = (5, 179)
    · subst h2
      rw [List.foldlM_cons, gridC5swap_oil_step]
      exact C5resolved_preserved t _ r ⟨by simp [Grid.set_lookup], by simp [Grid.set_lookup]⟩
    rw [List.foldlM_cons,
      tickStep_not_occupied 320 180 gridC5swap gridC5swap r a (gridC5swap_support a h1 h2)]
    refine ih (?_ : (5, 178) ∈ t)
    rcases List.mem_cons.1 hmem with h | h
    · exact absurd h.symm h1
    · exact h

/-- Witness for the amended C5 at a concrete visit order and stream. -/
theorem C5_amended_witness :
    ∃ g2, tickGrid 320 180 gridC5swap [(5, 178), (5, 179)] [] = some (g2, []) ∧ C5resolved g2 :=
  C5_amended [(5, 178), (5, 179)] [] (by simp)

/-- Claim C3 counterexample configuration: a single Fire cell with
stored lifespan 20 resting on the bottom row. -/
def gridC3 : Grid := fun p =>
  if p = (5, 179) then some ⟨CellId.Fire, some 20⟩ else none

theorem gridC3_step_fixed :
    ∀ p r, tickStep 320 180 gridC3 (gridC3, r) p = some (gridC3, r) := by
  intro p r
  by_cases h1 : p = (5, 179)
  · subst h1; rfl
  · exact tickStep_not_occupied 320 180 gridC3 gridC3 r p (by simp [gridC3, h1])

/-- Claim C3, counterexample: a Fire cell resting on the bottom row is
not decremented in the stored grid — the decrement happens on a local
copy and no rule writes the copy back for a bottom-row Fire cell, so
after a full tick over every coordinate its `remaining_life` is still
20, not 19. -/
theorem C3_counterexample :
    tickGrid 320 180 gridC3 (allCoords 320 180) [] = some (gridC3, []) ∧
    gridC3 (5, 179) = some ⟨CellId.Fire, some 20⟩ := by
  exact ⟨foldlM_tickStep_fixed 320 180 gridC3 gridC3 gridC3_step_fixed (allCoords 320 180) [], rfl⟩

/-- Claim C3 amended configuration: a single Fire cell with stored
lifespan 1, above the bottom row. -/
def gridC3die : Grid := fun p =>
  if p = (5, 100) then some ⟨CellId.Fire, some 1⟩ else none

theorem gridC3die_fire_step (g : Grid) (r : Rng) :
    tickStep 320 180 gridC3die (g, r) (5, 100) = some (g.set (5, 100) none, r) := rfl

theorem gridC3die_support (p : Nat × Nat) (h1 : p ≠ (5, 100)) : gridC3die p = none := by
  simp [gridC3die, h1]

theorem gridC3die_cleared_preserved :
    ∀ (l : List (Nat × Nat)) (g : Grid) (r : Rng), g (5, 100) = none →
      ∃ g2, List.foldlM (tickStep 320 180 gridC3die) (g, r) l = some (g2, r) ∧
        g2 (5, 100) = none := by
  intro l
  induction l with
  | nil => exact fun g r h => ⟨g, rfl, h⟩
  | cons a t ih =>
    intro g r h
    by_cases h1 : a = (5, 100)
    · subst h1
      rw [List.foldlM_cons, gridC3die_fire_step]
      exact ih _ r (by simp [Grid.set_lookup])
    · rw [List.foldlM_cons, tickStep_not_occupied 320 180 gridC3die g r a (gridC3die_support a h1)]
      exact ih g r h

/-- Claim C3 as amended: the per-tick decrement is applied to a local
copy of the cell and persists in the grid only when some rule writes
that copy back, and a cell whose decremented copy reaches zero is
destroyed; a cell that no rule writes keeps its previous stored
`remaining_life` — in particular a Fire cell resting on the bottom row
is stored unchanged (lifespan still 20 after a tick), while a Fire cell
whose lifespan 1 decrements to zero has its slot cleared under every
visit order that reaches it and every random stream. -/
theorem C3_amended :
    (∀ (order : List (Nat × Nat)) (r : Rng),
      tickGrid 320 180 gridC3 order r = some (gridC3, r)) ∧
    (∀ (order : List (Nat × Nat)) (r : Rng), (5, 100) ∈ order →
      ∃ g2, tickGrid 320 180 gridC3die order r = some (g2, r) ∧ g2 (5, 100) = none) := by
  constructor
  · intro order r
    exact foldlM_tickStep_fixed 320 180 gridC3 gridC3 gridC3_step_fixed order r
  · intro order r hmem
    unfold tickGrid
    induction order with
    | nil => cases hmem
    | cons a t ih =>
      by_cases h1 : a = (5, 100)
      · subst h1
        rw [List.foldlM_cons, gridC3die_fire_step]
        exact gridC3die_cleared_preserved t _ r (by simp [Grid.set_lookup])
      · rw [List.foldlM_cons,
          tickStep_not_occupied 320 180 gridC3die gridC3die r a (gridC3die_support a h1)]
        refine ih (?_ : (5, 100) ∈ t)
        rcases List.mem_cons.1 hmem with h | h
        · exact absurd h.symm h1
        · exact h

/-- Witness for the amended C3 at concrete orders and streams. -/
theorem C3_amended_witness :
    tickGrid 320 180 gridC3 [(5, 179)] [] = some (gridC3, []) ∧
    ∃ g2, tickGrid 320 180 gridC3die [(5, 100)] [] = some (g2, []) ∧ g2 (5, 100) = none :=
  ⟨C3_amended.1 [(5, 179)] [], C3_amended.2 [(5, 100)] [] (by simp)⟩

/-- Claim C7 configuration: a single Wind cell (stored lifespan 50)
above the bottom row, nothing else occupied. -/
def gridC7 : Grid := fun p =>
  if p = (3, 5) then some ⟨CellId.Wind, some 50⟩ else none

/-- Processing the Wind cell reaches the `Material::Wind => todo!()` arm
and aborts the tick, from any in-progress state. -/
theorem gridC7_wind_step (g : Grid) (r : Rng) :
    tickStep 320 180 gridC7 (g, r) (3, 5) = none := rfl

theorem gridC7_support (p : Nat × Nat) (h1 : p ≠ (3, 5)) : gridC7 p = none := by
  simp [gridC7, h1]

/-- An explicit full shuffle that visits the Wind cell first. -/
def orderC7 : List (Nat × Nat) :=
  (3, 5) :: (allCoords 320 180).filter (notIn [(3, 5)])

/-- Claim C7, counterexample: a tick of a grid holding one Wind cell
above the bottom row (with no earlier rule firing for it) reaches the
`todo!()` arm and fails — it does not leave the Wind cell in place; the
visit order used is a permutation of all grid coordinates. -/
theorem C7_counterexample :
    tickGrid 320 180 gridC7 orderC7 [] = none ∧
    orderC7.Perm (allCoords 320 180) := by
  constructor
  · show List.foldlM _ _ _ = none
    rw [show orderC7 = (3, 5) :: (allCoords 320 180).filter (notIn [(3, 5)]) from rfl,
      List.foldlM_cons, gridC7_wind_step]
    rfl
  · refine perm_front_filter [(3, 5)] (allCoords 320 180) (nodup_allCoords 320 180)
      (by simp) ?_
    intro a ha
    simp only [List.mem_singleton] at ha
    subst ha
    exact (mem_allCoords 320 180 (3, 5)).2 (by norm_num)

/-- Claim C7 as amended: the Wind arm of the engine is `todo!()`, a
panic, not a no-op — any tick whose visit order reaches a Wind cell that
no earlier rule moved or destroyed aborts instead of leaving the cell in
place. -/
theorem C7_amended (order : List (Nat × Nat)) (r : Rng) (hmem : (3, 5) ∈ order) :
    tickGrid 320 180 gridC7 order r = none := by
  unfold tickGrid
  induction order with
  | nil => cases hmem
  | cons a t ih =>
    by_cases h1 : a = (3, 5)
    · subst h1
      rw [List.foldlM_cons, gridC7_wind_step]
      rfl
    · rw [List.foldlM_cons, tickStep_not_occupied 320 180 gridC7 gridC7 r a (gridC7_support a h1)]
      refine ih (?_ : (3, 5) ∈ t)
      rcases List.mem_cons.1 hmem with h | h
      · exact absurd h.symm h1
      · exact h

/-- Witness for the amended C7 at a concrete order and stream. -/
theorem C7_amended_witness : tickGrid 320 180 gridC7 [(3, 5)] [] = none :=
  C7_amended [(3, 5)] [] (by simp)

/-- Claim C10 configuration: a single Fire cell (lifespan 20) at (8, 50),
above the bottom row, with no flammable neighbour. -/
def gridC10 : Grid := fun p =>
  if p = (8, 50) then some ⟨CellId.Fire, some 20⟩ else none

/-- Processing the fire cell when the two rise draws encode the offset
(dx, dy) = (0, 0): the old slot is vacated unconditionally, the snapshot
occupant of the destination is the fire cell itself, which is not
flammable, so nothing is written back — the fire cell is destroyed. -/
theorem gridC10_fire_step (g : Grid) (n1 n2 : Nat) (rest : Rng)
    (h1 : n1 % 3 = 1) (h2 : n2 % 3 = 2) :
    tickStep 320 180 gridC10 (g, n1 :: n2 :: rest) (8, 50) =
      some (g.set (8, 50) none, rest) := by
  simp +decide [tickStep, gridC10, Rng.genRange, Rng.next, Rng.genBool, Rng.genPercent,
    Rng.choose, clampInt, adjacent, fireSpreadLoop, fireBelow, decLife,
    floatRule, fallRule, extinguishRule, slideRule, materialRule, gapFill, disperse, fireArm,
    belowLeftOk, belowRightOk, gapLeftOk, gapRightOk,
    CellData.falls, CellData.slides, CellData.sinks_under, CellId.data, h1, h2]

theorem gridC10_support (p : Nat × Nat) (h1 : p ≠ (8, 50)) : gridC10 p = none := by
  simp [gridC10, h1]

/-- Claim C10: when the randomly chosen rise offset is (0, 0), the fire
cell vacates its slot, the destination snapshot occupant is the fire
cell itself (non-flammable), and the fire cell is removed from the
successor grid even though it did not move: after the tick the grid is
completely empty.  The stream draws `n1 % 3 = 1` and `n2 % 3 = 2` are
exactly the encodings of the offset (0, 0). -/
theorem C10_rise_self_destruct (order : List (Nat × Nat)) (n1 n2 : Nat) (rest : Rng)
    (hcount : order.count (8, 50) = 1) (h1 : n1 % 3 = 1) (h2 : n2 % 3 = 2) :
    ∃ g2, tickGrid 320 180 gridC10 order (n1 :: n2 :: rest) = some (g2, rest) ∧
      ∀ p, g2 p = none := by
  unfold tickGrid
  induction order with
  | nil => simp at hcount
  | cons a t ih =>
    by_cases ha : a = (8, 50)
    · subst ha
      rw [List.count_cons_self] at hcount
      have hzero : t.count ((8, 50) : Nat × Nat) = 0 := by omega
      have hte : ∀ p ∈ t, gridC10 p = none := by
        intro p hp
        refine gridC10_support p (fun e => ?_)
        rw [e] at hp
        exact absurd (List.count_eq_zero.1 hzero) (fun hn => hn hp)
      rw [List.foldlM_cons, gridC10_fire_step gridC10 n1 n2 rest h1 h2]
      refine ⟨gridC10.set (8, 50) none,
        foldlM_tickStep_empty 320 180 gridC10 _ rest t hte, ?_⟩
      intro p
      by_cases hp : p = (8, 50)
      · subst hp; simp [Grid.set_self]
      · rw [Grid.set_ne _ _ _ _ hp]; exact gridC10_support p hp
    · have hcount2 : t.count ((8, 50) : Nat × Nat) = 1 := by
        rwa [List.count_cons_of_ne (fun e => ha e.symm)] at hcount
      rw [List.foldlM_cons,
        tickStep_not_occupied 320 180 gridC10 gridC10 _ a (gridC10_support a ha)]
      exact ih hcount2

/-- Witness for C10 at a concrete order and stream (draws 1 and 2 encode
the rise offset (0, 0)). -/
theorem C10_rise_self_destruct_witness :
    ∃ g2, tickGrid 320 180 gridC10 [(8, 50)] [1, 2] = some (g2, []) ∧
      ∀ p, g2 p = none :=
  C10_rise_self_destruct [(8, 50)] 1 2 [] (by simp) (by decide) (by decide)

/-- Composing one successful step into a fold over the visit order. -/
theorem foldlM_tickStep_cons (W H : Nat) (old : Grid) (st st2 : Grid × Rng)
    (a : Nat × Nat) (l : List (Nat × Nat)) (h : tickStep W H old st a = some st2) :
    List.foldlM (tickStep W H old) st (a :: l) =
      List.foldlM (tickStep W H old) st2 l := by
  rw [List.foldlM_cons, h]
  rfl

/-- The gas cell of the overwrite scenario for claims C1 and C2. -/
def gasCellFG : Cell := ⟨CellId.Oxygen, none⟩

/-- Overwrite scenario for claims C1 and C2: an Oxygen cell at (19, 99)
and a Fire cell (lifespan 20) at (20, 100), not adjacent to each other. -/
def gridFG : Grid := fun p =>
  if p = (19, 99) then some gasCellFG
  else if p = (20, 100) then some ⟨CellId.Fire, some 20⟩
  else none

/-- A full shuffle visiting the gas first, then the fire, then the rest. -/
def orderFG : List (Nat × Nat) :=
  (19, 99) :: (20, 100) :: (allCoords 320 180).filter (notIn [(19, 99), (20, 100)])

/-- Successor grid of the overwrite scenario: the gas diffuses up to
(19, 98), then the fire rises with offset (-1, -2) onto the same slot —
its snapshot check sees the slot empty — and overwrites the gas. -/
def resFG : Grid :=
  (((gridFG.set (19, 99) none).set (19, 98) (some gasCellFG)).set (20, 100) none).set
    (19, 98) (some ⟨CellId.Fire, some 19⟩)

theorem gridFG_gas_step :
    tickStep 320 180 gridFG (gridFG, [1, 0, 0, 0]) (19, 99) =
      some ((gridFG.set (19, 99) none).set (19, 98) (some gasCellFG), [0, 0]) := rfl

theorem gridFG_fire_step :
    tickStep 320 180 gridFG
      ((gridFG.set (19, 99) none).set (19, 98) (some gasCellFG), [0, 0]) (20, 100) =
      some (resFG, []) := rfl

theorem gridFG_support (p : Nat × Nat) (h1 : p ≠ (19, 99)) (h2 : p ≠ (20, 100)) :
    gridFG p = none := by
  simp [gridFG, h1, h2]

theorem orderFG_perm : orderFG.Perm (allCoords 320 180) := by
  refine perm_front_filter [(19, 99), (20, 100)] (allCoords 320 180)
    (nodup_allCoords 320 180) (by decide) ?_
  intro a ha
  rcases List.mem_cons.1 ha with h | h
  · subst h
    exact (mem_allCoords 320 180 (19, 99)).2 (by norm_num)
  · simp only [List.mem_singleton] at h
    subst h
    exact (mem_allCoords 320 180 (20, 100)).2 (by norm_num)

/-- The full tick of the overwrite scenario. -/
theorem tickFG_run :
    tickGrid 320 180 gridFG orderFG [1, 0, 0, 0] = some (resFG, []) := by
  show List.foldlM (tickStep 320 180 gridFG) (gridFG, [1, 0, 0, 0])
    ((19, 99) :: (20, 100) :: (allCoords 320 180).filter (notIn [(19, 99), (20, 100)])) = _
  rw [foldlM_tickStep_cons 320 180 gridFG _ _ _ _ gridFG_gas_step,
    foldlM_tickStep_cons 320 180 gridFG _ _ _ _ gridFG_fire_step]
  refine foldlM_tickStep_empty 320 180 gridFG resFG [] _ ?_
  intro p hp
  have hn := (List.mem_filter.1 hp).2
  simp only [notIn, List.contains_cons, Bool.not_or, Bool.and_eq_true,
    Bool.not_eq_true', beq_eq_false_iff_ne] at hn
  rcases hn with ⟨hn1, hn2, -⟩
  exact gridFG_support p hn1 hn2

/-- Claim C1, counterexample: the tick destroys the gas cell through a
path the claim does not allow.  Before the tick the gas cell is live at
(19, 99); during the tick it diffuses into (19, 98) (empty in both
snapshot and successor); later the fire cell rises onto (19, 98) — its
destination check reads only the snapshot, sees the slot empty, and
overwrites the moved gas cell, which afterwards occurs nowhere in the
grid.  The visit order used is a permutation of all coordinates. -/
theorem C1_counterexample :
    orderFG.Perm (allCoords 320 180) ∧
    tickGrid 320 180 gridFG orderFG [1, 0, 0, 0] = some (resFG, []) ∧
    gridFG (19, 99) = some gasCellFG ∧
    resFG (19, 98) = some ⟨CellId.Fire, some 19⟩ ∧
    ¬ cellAppears resFG gasCellFG := by
  refine ⟨orderFG_perm, tickFG_run, rfl, rfl, ?_⟩
  rintro ⟨p, hp⟩
  by_cases h1 : p = (19, 98)
  · subst h1
    simp [resFG, Grid.set_self, gasCellFG] at hp
  by_cases h2 : p = (20, 100)
  · subst h2
    simp [resFG, Grid.set, gasCellFG] at hp
  by_cases h3 : p = (19, 99)
  · subst h3
    simp [resFG, Grid.set, gasCellFG] at hp
  · simp [resFG, Grid.set, gridFG, h1, h2, h3] at hp

/-- Claim C2, counterexample: the coordinate (19, 98) is written by two
different source cells in the same tick.  Processing the gas cell alone
commits the gas to (19, 98) (a prefix of the same visit order); the full
tick then has the fire cell rise to (19, 98), whose emptiness it checked
only against the snapshot, so the final grid holds the fire cell there —
the rule did not re-check the in-progress successor before committing. -/
theorem C2_counterexample :
    List.foldlM (tickStep 320 180 gridFG) (gridFG, [1, 0, 0, 0]) [(19, 99)] =
      some ((gridFG.set (19, 99) none).set (19, 98) (some gasCellFG), [0, 0]) ∧
    ((gridFG.set (19, 99) none).set (19, 98) (some gasCellFG)) (19, 98) = some gasCellFG ∧
    tickGrid 320 180 gridFG orderFG [1, 0, 0, 0] = some (resFG, []) ∧
    resFG (19, 98) = some ⟨CellId.Fire, some 19⟩ ∧
    orderFG.Perm (allCoords 320 180) := by
  refine ⟨?_, rfl, tickFG_run, rfl, orderFG_perm⟩
  rw [foldlM_tickStep_cons 320 180 gridFG _ _ _ _ gridFG_gas_step]
  rfl

/-- Two-gas scenario for the amended claim C2: Oxygen cells at (10, 10)
and (12, 10), both drawing the empty slot (11, 10) as diffusion target. -/
def gridGG : Grid := fun p =>
  if p = (10, 10) then some ⟨CellId.Oxygen, none⟩
  else if p = (12, 10) then some ⟨CellId.Oxygen, none⟩
  else none

/-- A full shuffle visiting the left gas first, then the right gas. -/
def orderGG : List (Nat × Nat) :=
  (10, 10) :: (12, 10) :: (allCoords 320 180).filter (notIn [(10, 10), (12, 10)])

/-- Successor grid of the two-gas scenario: only the first-visited gas
moves; the second finds the slot claimed in the successor buffer and
stays put. -/
def resGG : Grid := (gridGG.set (10, 10) none).set (11, 10) (some ⟨CellId.Oxygen, none⟩)

theorem gridGG_gas1_step :
    tickStep 320 180 gridGG (gridGG, [2, 1, 0, 1]) (10, 10) =
      some (resGG, [0, 1]) := rfl

theorem gridGG_gas2_step :
    tickStep 320 180 gridGG (resGG, [0, 1]) (12, 10) = some (resGG, []) := rfl

theorem gridGG_support (p : Nat × Nat) (h1 : p ≠ (10, 10)) (h2 : p ≠ (12, 10)) :
    gridGG p = none := by
  simp [gridGG, h1, h2]

/-- Claim C2 as amended: gas diffusion (like gap filling) does re-check
the in-progress successor buffer and leaves the cell in place when its
target was already claimed this tick — of two gases drawing the same
empty destination, only the first-visited one moves — but float, fall
and fire rise check only the snapshot, so a coordinate can still be
written by two source cells in one tick (see the counterexample). -/
theorem C2_amended :
    tickGrid 320 180 gridGG orderGG [2, 1, 0, 1] = some (resGG, []) ∧
    resGG (11, 10) = some ⟨CellId.Oxygen, none⟩ ∧
    resGG (10, 10) = none ∧
    resGG (12, 10) = some ⟨CellId.Oxygen, none⟩ ∧
    orderGG.Perm (allCoords 320 180) := by
  refine ⟨?_, rfl, by simp [resGG, Grid.set, gridGG], rfl, ?_⟩
  · show List.foldlM (tickStep 320 180 gridGG) (gridGG, [2, 1, 0, 1])
      ((10, 10) :: (12, 10) :: (allCoords 320 180).filter (notIn [(10, 10), (12, 10)])) = _
    rw [foldlM_tickStep_cons 320 180 gridGG _ _ _ _ gridGG_gas1_step,
      foldlM_tickStep_cons 320 180 gridGG _ _ _ _ gridGG_gas2_step]
    refine foldlM_tickStep_empty 320 180 gridGG resGG [] _ ?_
    intro p hp
    have hn := (List.mem_filter.1 hp).2
    simp only [notIn, List.contains_cons, Bool.not_or, Bool.and_eq_true,
      Bool.not_eq_true', beq_eq_false_iff_ne] at hn
    rcases hn with ⟨hn1, hn2, -⟩
    exact gridGG_support p hn1 hn2
  · refine perm_front_filter [(10, 10), (12, 10)] (allCoords 320 180)
      (nodup_allCoords 320 180) (by decide) ?_
    intro a ha
    rcases List.mem_cons.1 ha with h | h
    · subst h
      exact (mem_allCoords 320 180 (10, 10)).2 (by norm_num)
    · simp only [List.mem_singleton] at h
      subst h
      exact (mem_allCoords 320 180 (12, 10)).2 (by norm_num)

/-- The values a rule may commit into a slot of the successor buffer
`gg` while processing one coordinate, relative to the snapshot `old` and
the buffer `g` the step started from: cleared, a copy of another slot of
`g`, a copy of a snapshot cell, the (nonzero) decremented copy of a
snapshot cell, or a Fire spawn carrying the catalog lifespan of a
snapshot Fire cell. -/
def writeOk (old g : Grid) (v : Option Cell) : Prop :=
  v = none ∨
  (∃ q1, v = g q1) ∨
  (∃ c0, (∃ q0, old q0 = some c0) ∧
    (v = some c0 ∨
     (v = some (decLife c0) ∧ (decLife c0).life ≠ some 0) ∨
     (v = some ⟨c0.id, (CellId.data c0.id).lifespan⟩ ∧ (CellId.data c0.id).material = .Fire)))

/-- Every slot of a buffer holds an allowed write. -/
def buffOk (old g gg : Grid) : Prop := ∀ q, writeOk old g (gg q)

theorem writeOk_none (old g : Grid) : writeOk old g none := Or.inl rfl

theorem writeOk_buf (old g : Grid) (q1 : Nat × Nat) : writeOk old g (g q1) :=
  Or.inr (Or.inl ⟨q1, rfl⟩)

theorem writeOk_old (old g : Grid) (q0 : Nat × Nat) : writeOk old g (old q0) := by
  rcases h : old q0 with _ | c
  · exact Or.inl rfl
  · exact Or.inr (Or.inr ⟨c, ⟨q0, h⟩, Or.inl rfl⟩)

theorem decLife_id (c : Cell) : (decLife c).id = c.id := by
  rcases c with ⟨i, _ | k⟩ <;> rfl

theorem writeOk_dec (old g : Grid) (q0 : Nat × Nat) (c0 : Cell) (h : old q0 = some c0)
    (hguard : ¬(c0.life.isSome && (decLife c0).life == some 0) = true) :
    writeOk old g (some (decLife c0)) := by
  refine Or.inr (Or.inr ⟨c0, ⟨q0, h⟩, ?_⟩)
  rcases hl : c0.life with _ | k
  · left
    have he : decLife c0 = c0 := by simp [decLife, hl]
    rw [he]
  · right; left
    refine ⟨rfl, ?_⟩
    simp only [hl, Option.isSome_some, Bool.true_and, beq_iff_eq] at hguard
    intro he
    exact hguard (by simpa using he)

theorem writeOk_spawn (old g : Grid) (q0 : Nat × Nat) (c0 : Cell) (h : old q0 = some c0)
    (hm : (CellId.data c0.id).material = .Fire) :
    writeOk old g (some ⟨c0.id, (CellId.data c0.id).lifespan⟩) :=
  Or.inr (Or.inr ⟨c0, ⟨q0, h⟩, Or.inr (Or.inr ⟨rfl, hm⟩)⟩)

theorem buffOk_base (old g : Grid) : buffOk old g g := fun q => writeOk_buf old g q

theorem buffOk_set {old g gg : Grid} {a : Nat × Nat} {v : Option Cell}
    (h : buffOk old g gg) (hv : writeOk old g v) : buffOk old g (gg.set a v) := by
  intro q
  by_cases hq : q = a
  · rw [hq, Grid.set_self]; exact hv
  · rw [Grid.set_ne _ _ _ _ hq]; exact h q

theorem floatRule_writes {old g : Grid} {rng : Rng} {x y : Nat} {cell : Cell}
    {g2 : Grid} {r2 : Rng} (h : floatRule old g rng x y cell = some (g2, r2))
    (hcell : writeOk old g (some cell)) : buffOk old g g2 := by
  unfold floatRule at h
  split at h
  · cases h
    exact buffOk_set (buffOk_set (buffOk_base old g) (writeOk_old old g _)) hcell
  · cases h

theorem fallRule_writes {old g : Grid} {rng : Rng} {x y : Nat} {cell : Cell}
    {g2 : Grid} {r2 : Rng} (h : fallRule old g rng x y cell = some (g2, r2))
    (hcell : writeOk old g (some cell)) : buffOk old g g2 := by
  unfold fallRule at h
  split at h
  · cases h
    exact buffOk_set (buffOk_set (buffOk_base old g) (writeOk_old old g _)) hcell
  · cases h

theorem extinguishRule_writes {old g : Grid} {rng : Rng} {x y : Nat} {cell : Cell}
    {g2 : Grid} {r2 : Rng} (h : extinguishRule old g rng x y cell = some (g2, r2))
    (hcell : writeOk old g (some cell)) : buffOk old g g2 := by
  unfold extinguishRule at h
  split at h
  · cases h
    split
    · exact buffOk_set (buffOk_set (buffOk_base old g) (writeOk_none old g)) hcell
    · exact buffOk_set (buffOk_base old g) (writeOk_none old g)
  · cases h

theorem slideRule_writes {W : Nat} {old g : Grid} {rng : Rng} {x y : Nat} {cell : Cell}
    {g2 : Grid} {r2 : Rng} (h : slideRule W old g rng x y cell = some (g2, r2))
    (hcell : writeOk old g (some cell)) : buffOk old g g2 := by
  unfold slideRule at h
  rcases hb : Rng.genBool rng with ⟨b, r1⟩
  rw [hb] at h
  cases b <;> cases hbl : belowLeftOk old g x y cell <;>
    cases hbr : belowRightOk W old g x y cell <;> rw [hbl, hbr] at h <;> simp at h
  all_goals obtain ⟨h1, h2⟩ := h
  all_goals subst h1
  all_goals exact buffOk_set (buffOk_set (buffOk_base old g) (writeOk_old old g _)) hcell

theorem gapFill_writes {W : Nat} {old g : Grid} {rng : Rng} {x y : Nat} {cell : Cell}
    {g2 : Grid} {r2 : Rng} (h : gapFill W old g rng x y cell = (g2, r2))
    (hcell : writeOk old g (some cell)) : buffOk old g g2 := by
  unfold gapFill at h
  rcases hb : Rng.genBool rng with ⟨b, r1⟩
  rw [hb] at h
  cases b <;> cases hbl : gapLeftOk old g x y cell <;>
    cases hbr : gapRightOk W old g x y cell <;> rw [hbl, hbr] at h <;> simp at h
  all_goals obtain ⟨h1, h2⟩ := h
  all_goals subst h1
  all_goals first
    | exact buffOk_set (buffOk_set (buffOk_base old g) (writeOk_buf old g _)) hcell
    | exact buffOk_base old g

theorem disperse_writes {W H : Nat} {old g : Grid} {rng : Rng} {x y : Nat} {cell : Cell}
    {g2 : Grid} {r2 : Rng} (h : disperse W H old g rng x y cell = (g2, r2))
    (hcell : writeOk old g (some cell)) : buffOk old g g2 := by
  unfold disperse at h
  rcases h1 : Rng.genRange (-1) 1 rng with ⟨dx, r1a⟩
  rw [h1] at h
  dsimp only at h
  rcases h2 : Rng.genRange (-1) 1 r1a with ⟨dy, r2a⟩
  rw [h2] at h
  dsimp only at h
  split at h
  all_goals simp at h
  all_goals obtain ⟨h1, h2⟩ := h
  all_goals subst h1
  · exact buffOk_set (buffOk_set (buffOk_base old g) (writeOk_none old g)) hcell
  · exact buffOk_base old g

theorem fireSpreadLoop_buffOk {W H : Nat} {old g : Grid} {cell : Cell}
    (hspawn : writeOk old g (some ⟨cell.id, (CellId.data cell.id).lifespan⟩)) :
    ∀ (fl : List (Nat × Nat)) (gg : Grid) (r : Rng), buffOk old g gg →
      buffOk old g (fireSpreadLoop W H old cell fl gg r).1 := by
  intro fl
  induction fl with
  | nil => exact fun gg r h => h
  | cons a rest ih =>
    rcases a with ⟨nx, ny⟩
    intro gg r h
    rw [fireSpreadLoop]
    rcases hpick : Rng.choose ((adjacent W H nx ny).filter
      (fun q => (old q).isNone && (gg q).isNone)) r with ⟨pick, r1⟩
    dsimp only
    rcases hm : Rng.genPercent r1 with ⟨m, r2⟩
    dsimp only
    rcases pick with _ | q
    · split
      · exact ih _ r2 (buffOk_set h hspawn)
      · exact ih _ r2 h
    · split
      · exact ih _ r2 (buffOk_set (buffOk_set h hspawn) hspawn)
      · exact ih _ r2 (buffOk_set h hspawn)

theorem fireArm_writes {W H : Nat} {old g : Grid} {rng : Rng} {x y : Nat} {cell : Cell}
    {g2 : Grid} {r2 : Rng} (h : fireArm W H old g rng x y cell = (g2, r2))
    (hcell : writeOk old g (some cell))
    (hspawn : writeOk old g (some ⟨cell.id, (CellId.data cell.id).lifespan⟩)) :
    buffOk old g g2 := by
  unfold fireArm at h
  dsimp only at h
  rcases hsp : fireSpreadLoop W H old cell ((adjacent W H x y).filter
      (fun q => (old q).isSome &&
        (match old q with
         | some c => (CellId.data c.id).flammable
         | none => false))) g rng with ⟨g1, r1⟩
  rw [hsp] at h
  dsimp only at h
  have hg1 : buffOk old g g1 := by
    have h2 := fireSpreadLoop_buffOk (W := W) (H := H) hspawn
      ((adjacent W H x y).filter
        (fun q => (old q).isSome &&
          (match old q with
           | some c => (CellId.data c.id).flammable
           | none => false))) g rng (buffOk_base old g)
    rwa [hsp] at h2
  rcases hd1 : Rng.genRange (-1) 1 r1 with ⟨dx, r2a⟩
  rw [hd1] at h
  dsimp only at h
  rcases hd2 : Rng.genRange (-2) 0 r2a with ⟨dy, r3a⟩
  rw [hd2] at h
  dsimp only at h
  rcases hnn : old ((clampInt ((x : Int) + dx) 0 ((W : Int) - 1)).toNat,
      (clampInt ((y : Int) + dy) 0 ((H : Int) - 1)).toNat) with _ | c
  all_goals rw [hnn] at h
  all_goals dsimp only at h
  all_goals try split at h
  all_goals simp at h
  all_goals obtain ⟨h1, h2⟩ := h
  all_goals subst h1
  all_goals first
    | exact buffOk_set (buffOk_set hg1 (writeOk_none old g)) hcell
    | exact buffOk_set hg1 (writeOk_none old g)

theorem materialRule_writes {W H : Nat} {old g : Grid} {rng : Rng} {x y : Nat} {cell : Cell}
    {g2 : Grid} {r2 : Rng} (h : materialRule W H old g rng x y cell = some (g2, r2))
    (hcell : writeOk old g (some cell))
    (hspawn : (CellId.data cell.id).material = .Fire →
      writeOk old g (some ⟨cell.id, (CellId.data cell.id).lifespan⟩)) :
    buffOk old g g2 := by
  unfold materialRule at h
  split at h
  · cases h; exact buffOk_base old g
  · cases h; exact buffOk_base old g
  · injection h with h2
    rcases hgf : gapFill W old g rng x y cell with ⟨g3, r3⟩
    rw [hgf] at h2
    cases h2
    exact gapFill_writes hgf hcell
  · injection h with h2
    rcases hgf : disperse W H old g rng x y cell with ⟨g3, r3⟩
    rw [hgf] at h2
    cases h2
    exact disperse_writes hgf hcell
  · rename_i hm
    injection h with h2
    rcases hgf : fireArm W H old g rng x y cell with ⟨g3, r3⟩
    rw [hgf] at h2
    cases h2
    exact fireArm_writes hgf hcell (hspawn hm)
  · cases h

/-- Master characterization: a successful step of the engine produces a
buffer every slot of which is an allowed write. -/
theorem tickStep_writes (W H : Nat) (old : Grid) (g : Grid) (r : Rng) (p : Nat × Nat)
    (g2 : Grid) (r2 : Rng) (hres : tickStep W H old (g, r) p = some (g2, r2)) :
    buffOk old g g2 := by
  rcases hold : old p with _ | cell0
  · rw [tickStep_not_occupied W H old g r p hold] at hres
    cases hres
    exact buffOk_base old g
  · unfold tickStep at hres
    rw [hold] at hres
    dsimp only at hres
    split at hres
    · cases hres
      exact buffOk_set (buffOk_base old g) (writeOk_none old g)
    case _ hguard =>
      have hcell : writeOk old g (some (decLife cell0)) := writeOk_dec old g p cell0 hold hguard
      have hspawn : (CellId.data (decLife cell0).id).material = .Fire →
          writeOk old g (some ⟨(decLife cell0).id, (CellId.data (decLife cell0).id).lifespan⟩) := by
        rw [decLife_id]
        intro hm
        exact writeOk_spawn old g p cell0 hold hm
      rcases hf : floatRule old g r p.1 p.2 (decLife cell0) with _ | st2f
      · rw [hf] at hres
        dsimp only at hres
        split at hres
        · rcases hfall : fallRule old g r p.1 p.2 (decLife cell0) with _ | st2a
          · rw [hfall] at hres
            dsimp only at hres
            rcases hext : extinguishRule old g r p.1 p.2 (decLife cell0) with _ | st2e
            · rw [hext] at hres
              dsimp only at hres
              rcases hsl : slideRule W old g r p.1 p.2 (decLife cell0) with _ | st2s
              · rw [hsl] at hres
                dsimp only at hres
                exact materialRule_writes hres hcell hspawn
              · rw [hsl] at hres
                dsimp only at hres
                cases hres
                exact slideRule_writes hsl hcell
            · rw [hext] at hres
              dsimp only at hres
              cases hres
              exact extinguishRule_writes hext hcell
          · rw [hfall] at hres
            dsimp only at hres
            cases hres
            exact fallRule_writes hfall hcell
        · cases hres
          exact buffOk_base old g
      · rw [hf] at hres
        dsimp only at hres
        cases hres
        exact floatRule_writes hf hcell

/-- A predicate on the successor buffer preserved by every single step is
preserved by folding the step over any visit order. -/
theorem foldlM_tickStep_invariant (W H : Nat) (old : Grid) (P : Grid → Prop)
    (hstep : ∀ (g : Grid) (r : Rng) (p : Nat × Nat) (g2 : Grid) (r2 : Rng),
      P g → tickStep W H old (g, r) p = some (g2, r2) → P g2) :
    ∀ (l : List (Nat × Nat)) (g : Grid) (r : Rng) (g2 : Grid) (r2 : Rng),
      P g → List.foldlM (tickStep W H old) (g, r) l = some (g2, r2) → P g2 := by
  intro l
  induction l with
  | nil =>
    intro g r g2 r2 hp h
    cases h
    exact hp
  | cons a t ih =>
    intro g r g2 r2 hp h
    rw [List.foldlM_cons] at h
    rcases hs : tickStep W H old (g, r) a with _ | ⟨g1, r1⟩
    · rw [hs] at h
      cases h
    · rw [hs] at h
      exact ih g1 r1 g2 r2 (hstep g r a g1 r1 hp hs) h

/-- Fire is the only catalog entry of material Fire. -/
theorem fire_material_id :
    ∀ id : CellId, (CellId.data id).material = Material.Fire → id = CellId.Fire := by
  intro id
  cases id <;> simp [CellId.data]

/-- A successor cell is a snapshot cell (possibly moved, possibly with
its lifespan decremented on write-back) or a freshly spawned Fire cell
carrying Fire's catalog lifespan (`some 20`). -/
def oldDerivedOrFire (old : Grid) (c : Cell) : Prop :=
  (∃ q0 c0, old q0 = some c0 ∧ (c = c0 ∨ c = decLife c0)) ∨
  c = ⟨CellId.Fire, (CellId.data CellId.Fire).lifespan⟩

theorem writeOk_oldDerivedOrFire {old g : Grid} {v : Option Cell}
    (hg : ∀ p c, g p = some c → oldDerivedOrFire old c)
    (hw : writeOk old g v) : ∀ c, v = some c → oldDerivedOrFire old c := by
  intro c hv
  rcases hw with h | ⟨q1, h⟩ | ⟨c0, ⟨q0, h0⟩, hc⟩
  · rw [hv] at h
    cases h
  · rw [hv] at h
    exact hg q1 c h.symm
  · rcases hc with h | ⟨h, hnz⟩ | ⟨h, hm⟩
    · rw [hv] at h
      injection h with h
      exact Or.inl ⟨q0, c0, h0, Or.inl h⟩
    · rw [hv] at h
      injection h with h
      exact Or.inl ⟨q0, c0, h0, Or.inr h⟩
    · rw [hv] at h
      injection h with h
      refine Or.inr ?_
      rw [h, fire_material_id c0.id hm]

/-- Claim C1 as amended: the multiset of live cells changes only by
moves, removals and combustion-spread Fire creations — except that the
float, fall and fire-rise rules check their destination only against the
snapshot, so a cell that moved into that destination this tick can
additionally be destroyed by overwrite (see the counterexample).  On the
creation side the claim stands: every cell of the successor grid of a
tick is a snapshot cell (possibly moved, possibly with its lifespan
decremented) or a Fire cell freshly spawned by the combustion rules with
Fire's catalog lifespan `some 20`; no other creation path exists. -/
theorem C1_amended (W H : Nat) (old : Grid) (order : List (Nat × Nat)) (r : Rng)
    (g2 : Grid) (r2 : Rng) (h : tickGrid W H old order r = some (g2, r2)) :
    ∀ p c, g2 p = some c → oldDerivedOrFire old c := by
  have base : ∀ p c, old p = some c → oldDerivedOrFire old c :=
    fun p c hp => Or.inl ⟨p, c, hp, Or.inl rfl⟩
  refine foldlM_tickStep_invariant W H old
    (fun gg => ∀ p c, gg p = some c → oldDerivedOrFire old c)
    ?_ order old r g2 r2 base h
  intro g rr pp gg2 rr2 hp hs q c hq
  exact writeOk_oldDerivedOrFire hp (tickStep_writes W H old g rr pp gg2 rr2 hs q) c hq

/-- A one-cell configuration used to witness the amended C1. -/
def gridC1w : Grid := fun p =>
  if p = (0, 179) then some ⟨CellId.Sand, none⟩ else none

/-- Witness for the amended C1: the sand cell surviving a concrete tick
is derived from the snapshot. -/
theorem C1_amended_witness : oldDerivedOrFire gridC1w ⟨CellId.Sand, none⟩ :=
  C1_amended 320 180 gridC1w [(0, 179)] [] gridC1w [] rfl (0, 179) ⟨CellId.Sand, none⟩ rfl

/-- No stored cell of a grid carries an exhausted lifespan counter. -/
def noZeroLife (g : Grid) : Prop := ∀ p c, g p = some c → c.life ≠ some 0

theorem catalog_lifespan_ne_zero : ∀ id : CellId, (CellId.data id).lifespan ≠ some 0 := by
  intro id
  cases id <;> simp [CellId.data]

theorem writeOk_noZeroLife {old g : Grid} {v : Option Cell}
    (hold : noZeroLife old) (hg : noZeroLife g) (hw : writeOk old g v) :
    ∀ c, v = some c → c.life ≠ some 0 := by
  intro c hv
  rcases hw with h | ⟨q1, h⟩ | ⟨c0, ⟨q0, h0⟩, hc⟩
  · rw [hv] at h
    cases h
  · rw [hv] at h
    exact hg q1 c h.symm
  · rcases hc with h | ⟨h, hnz⟩ | ⟨h, hm⟩
    · rw [hv] at h
      injection h with h
      rw [h]
      exact hold q0 c0 h0
    · rw [hv] at h
      injection h with h
      rw [h]
      exact hnz
    · rw [hv] at h
      injection h with h
      rw [h]
      exact catalog_lifespan_ne_zero c0.id

/-- The grids reachable from the empty start grid by whole ticks and
single placements (the two mutations of the live grid in src/cell.rs). -/
inductive Reachable : Grid → Prop where
  | empty : Reachable Grid.empty
  | tick : ∀ (g : Grid) (order : List (Nat × Nat)) (r : Rng) (g2 : Grid) (r2 : Rng),
      Reachable g → tickGrid GRID_WIDTH GRID_HEIGHT g order r = some (g2, r2) → Reachable g2
  | place : ∀ (g : Grid) (p : Nat × Nat) (id : CellId),
      Reachable g → Reachable (tryPlace g p id)

/-- Claim C9: every grid reachable from the empty grid by ticks and
placements stores no cell with `remaining_life = Some 0`: placements
store the catalog lifespans (none of which is zero), a cell whose
decremented copy reaches zero is cleared rather than written back, and
every other write copies a cell that already satisfied the invariant —
so the per-tick decrement never operates on a stored zero. -/
theorem C9_no_zero_life (g : Grid) (hg : Reachable g) :
    ∀ p c, g p = some c → c.life ≠ some 0 := by
  induction hg with
  | empty =>
    intro p c h
    exact absurd h (by simp [Grid.empty])
  | tick g order r g2 r2 hr htick ih =>
    refine foldlM_tickStep_invariant GRID_WIDTH GRID_HEIGHT g noZeroLife ?_
      order g r g2 r2 ih htick
    intro gg rr pp gg2 rr2 hp hs q c hq
    exact writeOk_noZeroLife ih hp
      (tickStep_writes GRID_WIDTH GRID_HEIGHT g gg rr pp gg2 rr2 hs q) c hq
  | place g p id hr ih =>
    intro q c h
    unfold tryPlace at h
    split at h
    · by_cases hq : q = p
      · rw [hq, Grid.set_self] at h
        injection h with h
        rw [← h]
        exact catalog_lifespan_ne_zero id
      · rw [Grid.set_ne _ _ _ _ hq] at h
        exact ih q c h
    · exact ih q c h

/-- Witness for C9: a freshly placed Fire cell on the empty grid carries
lifespan 20, not zero. -/
theorem C9_no_zero_life_witness : (⟨CellId.Fire, some 20⟩ : Cell).life ≠ some 0 :=
  C9_no_zero_life (tryPlace Grid.empty (1, 1) CellId.Fire)
    (Reachable.place Grid.empty (1, 1) CellId.Fire Reachable.empty)
    (1, 1) ⟨CellId.Fire, some 20⟩ rfl

/-- Material classes of the src/grid.rs engine.  Modelled from the spec:
section 3 gives the closed set Powder, Solid, Liquid(density), Acid, Gas,
Fire, Wind; src/grid.rs uses these constructors but the defining enum
(the one with Acid) is not part of the sources. -/
inductive MaterialG where
  | Powder
  | Solid
  | Liquid (density : Nat)
  | Acid
  | Gas
  | Fire
  | Wind
deriving DecidableEq, Repr

/-- Cell identifiers of the src/grid.rs engine (its `select_tile` offers
Sand, Stone, Wood, Water, Oil, Acid, Oxygen, Fire; Wind is the remaining
catalog id). -/
inductive CellIdG where
  | Sand
  | Stone
  | Wood
  | Water
  | Oil
  | Acid
  | Oxygen
  | Fire
  | Wind
deriving DecidableEq, Repr

/-- A grid slot value of the src/grid.rs engine. -/
structure CellG where
  id : CellIdG
  life : Option Nat
deriving DecidableEq, Repr

/-- Modelled from the spec: the per-id material class used by the
src/grid.rs engine (`Cell::material`); the shared ids follow the
src/cell.rs catalog, Acid is the class the spec adds in section 3. -/
def CellG.material (c : CellG) : MaterialG :=
  match c.id with
  | .Sand => .Powder
  | .Stone => .Solid
  | .Wood => .Solid
  | .Water => .Liquid 1
  | .Oil => .Liquid 0
  | .Acid => .Acid
  | .Oxygen => .Gas
  | .Fire => .Fire
  | .Wind => .Wind

/-- Modelled from the spec: flammability per id (`Cell::flammable`),
following the src/cell.rs catalog; Acid is not listed flammable. -/
def CellG.flammable (c : CellG) : Bool :=
  match c.id with
  | .Wood | .Oil | .Oxygen => true
  | _ => false

/-- Modelled from the spec: catalog lifespans (`Cell::lifespan`): Fire 20
(spec section 8), Wind 50 as in the src/cell.rs catalog, none for the
others including Acid. -/
def CellG.lifespan (c : CellG) : Option Nat :=
  match c.id with
  | .Fire => some 20
  | .Wind => some 50
  | _ => none

/-- Modelled from the spec (4.2): `falls()` is true for Powder, Solid,
Liquid, Acid and false for Gas, Fire, Wind. -/
def CellG.falls (c : CellG) : Bool :=
  match c.material with
  | .Powder | .Solid | .Liquid _ | .Acid => true
  | .Gas | .Fire | .Wind => false

/-- Modelled from the spec (4.2): `slides()` is true for Powder, Liquid,
Acid. -/
def CellG.slides (c : CellG) : Bool :=
  match c.material with
  | .Powder | .Liquid _ | .Acid => true
  | _ => false

/-- Modelled from the spec (4.2): `sinks_under` is true on an empty slot,
for Powder/Solid over Liquid or Gas, and for a denser Liquid over a less
dense one; all other pairs are false. -/
def CellG.sinks_under (c : CellG) (other : Option CellG) : Bool :=
  match other with
  | none => true
  | some o =>
    match c.material, o.material with
    | .Powder, .Liquid _ => true
    | .Solid, .Liquid _ => true
    | .Liquid a, .Liquid b => decide (b < a)
    | .Powder, .Gas => true
    | .Solid, .Gas => true
    | _, _ => false

/-- Modelled from the spec (4.2): `dissolves` is true only when this cell
is Acid and the other slot holds a non-Acid material; Acid does not
dissolve empty space or other Acid. -/
def CellG.dissolves (c : CellG) (other : Option CellG) : Bool :=
  match c.material, other with
  | .Acid, some o => !(o.material == MaterialG.Acid)
  | _, _ => false

/-- The grid of the src/grid.rs engine. -/
def GridG : Type := Nat × Nat → Option CellG

/-- Write one slot. -/
def GridG.set (g : GridG) (p : Nat × Nat) (v : Option CellG) : GridG :=
  fun q => if q = p then v else g q

/-- The wrapping `u8` lifespan decrement on the local copy. -/
def decLifeG (c : CellG) : CellG :=
  match c.life with
  | some l => { c with life := some ((l + 255) % 256) }
  | none => c

/-- The flame-spread loop of the Fire arm in src/grid.rs `tick_grid`
(spawns carry `cell.lifespan()`). -/
def fireSpreadLoopG (W H : Nat) (old : GridG) (fireCell : CellG) :
    List (Nat × Nat) → GridG → Rng → GridG × Rng
  | [], g, r => (g, r)
  | (nx, ny) :: rest, g, r =>
    let openSlots := (adjacent W H nx ny).filter
      (fun q => (old q).isNone && (g q).isNone)
    let (pick, r1) := Rng.choose openSlots r
    let g1 := match pick with
      | some q => g.set q (some ⟨fireCell.id, fireCell.lifespan⟩)
      | none => g
    let chance : Nat := match old (nx, ny) with
      | some c =>
        match c.material with
        | .Liquid _ => 55
        | _ => 10
      | none => 10  -- unreachable: the neighbour list only holds occupied slots
    let (m, r2) := Rng.genPercent r1
    let g2 := if m < chance then g1.set (nx, ny) (some ⟨fireCell.id, fireCell.lifespan⟩)
      else g1
    fireSpreadLoopG W H old fireCell rest g2 r2

/-- The rules of src/grid.rs `tick_grid` that follow the fall block:
`Slide down slopes` (with its dissolve variants), then the material
dispatch (`Fill gaps` for Liquid and Acid, `Disperse`, Fire, and the
`Material::Wind => todo!()` panic modelled as `none`). -/
def afterFallG (W H : Nat) (old : GridG) (new : GridG) (rng : Rng) (x y : Nat)
    (cell : CellG) : Option (GridG × Rng) :=
  let belowLeft := cell.slides && 0 < x &&
    (cell.sinks_under (old (x - 1, y + 1)) || cell.dissolves (old (x - 1, y + 1))) &&
    cell.sinks_under (old (x - 1, y)) &&
    (old (x - 1, y + 1) == new (x - 1, y + 1))
  let belowRight := cell.slides && x < W - 1 &&
    (cell.sinks_under (old (x + 1, y + 1)) || cell.dissolves (old (x + 1, y + 1))) &&
    cell.sinks_under (old (x + 1, y)) &&
    (old (x + 1, y + 1) == new (x + 1, y + 1))
  let commitLeft : GridG :=
    if cell.dissolves (old (x - 1, y + 1)) then (new.set (x, y) none).set (x - 1, y + 1) none
    else (new.set (x, y) (old (x - 1, y + 1))).set (x - 1, y + 1) (some cell)
  let commitRight : GridG :=
    if cell.dissolves (old (x + 1, y + 1)) then (new.set (x, y) none).set (x + 1, y + 1) none
    else (new.set (x, y) (old (x + 1, y + 1))).set (x + 1, y + 1) (some cell)
  if belowLeft && belowRight then
    let (b, r1) := rng.genBool
    if b then some (commitLeft, r1) else some (commitRight, r1)
  else if belowLeft then some (commitLeft, rng)
  else if belowRight then some (commitRight, rng)
  else
    match cell.material with
    | .Powder | .Solid => some (new, rng)
    | .Liquid _ | .Acid =>
      -- Fill gaps
      let lft := 0 < x &&
        (cell.sinks_under (new (x - 1, y)) || cell.dissolves (new (x - 1, y))) &&
        (y == 0 || cell.sinks_under (old (x - 1, y - 1)))
      let rgt := x < W - 1 &&
        (cell.sinks_under (new (x + 1, y)) || cell.dissolves (new (x + 1, y))) &&
        (y == 0 || cell.sinks_under (old (x + 1, y - 1)))
      let commitL : GridG :=
        if cell.dissolves (new (x - 1, y)) then (new.set (x, y) none).set (x - 1, y) none
        else (new.set (x, y) (new (x - 1, y))).set (x - 1, y) (some cell)
      let commitR : GridG :=
        if cell.dissolves (new (x + 1, y)) then (new.set (x, y) none).set (x + 1, y) none
        else (new.set (x, y) (new (x + 1, y))).set (x + 1, y) (some cell)
      if lft && rgt then
        let (b, r1) := rng.genBool
        if b then some (commitL, r1) else some (commitR, r1)
      else if lft then some (commitL, rng)
      else if rgt then some (commitR, rng)
      else some (new, rng)
    | .Gas =>
      -- Disperse
      let (dx, r1) := Rng.genRange (-1) 1 rng
      let (dy, r2) := Rng.genRange (-1) 1 r1
      let nx := (clampInt ((x : Int) + dx) 0 ((W : Int) - 1)).toNat
      let ny := (clampInt ((y : Int) + dy) 0 ((H : Int) - 1)).toNat
      if (old (nx, ny)).isNone && (new (nx, ny)).isNone then
        some (((new.set (x, y) none).set (nx, ny) (some cell)), r2)
      else
        some (new, r2)
    | .Fire =>
      -- Spread flames, then Rise
      let flammables := (adjacent W H x y).filter
        (fun q => (old q).isSome &&
          (match old q with
           | some c => c.flammable
           | none => false))
      let (g1, r1) := fireSpreadLoopG W H old cell flammables new rng
      let (dx, r2) := Rng.genRange (-1) 1 r1
      let (dy, r3) := Rng.genRange (-2) 0 r2
      let nx := (clampInt ((x : Int) + dx) 0 ((W : Int) - 1)).toNat
      let ny := (clampInt ((y : Int) + dy) 0 ((H : Int) - 1)).toNat
      let g2 := g1.set (x, y) none
      let g3 := match old (nx, ny) with
        | some c => if c.flammable then g2.set (nx, ny) (some cell) else g2
        | none => g2.set (nx, ny) (some cell)
      some (g3, r3)
    | .Wind => none

/-- Processing of one visited coordinate inside `tick_grid` of
src/grid.rs: lifespan decay on a local copy, float, then — below the
bottom row guard — the fall block (fall or dissolve below, the
extinguish arm, and the no-`continue` dissolve-in-acid arm that updates
the buffer and falls through), then slide and the material dispatch. -/
def tickStepG (W H : Nat) (old : GridG) (st : GridG × Rng) (p : Nat × Nat) :
    Option (GridG × Rng) :=
  let new := st.1
  let rng := st.2
  let x := p.1
  let y := p.2
  match old p with
  | none => some (new, rng)
  | some cell0 =>
    let cell := decLifeG cell0
    if cell0.life.isSome && cell.life == some 0 then
      some (new.set (x, y) none, rng)
    else
      -- Float
      if 0 < y &&
         (old (x, y - 1)).isSome &&
         (match old (x, y - 1) with
          | some a => a.sinks_under (some cell)
          | none => false) then
        some (((new.set (x, y) (old (x, y - 1))).set (x, y - 1) (some cell)), rng)
      else if y < H - 1 then
        -- Fall (with the dissolve variant)
        if cell.falls &&
           (cell.sinks_under (old (x, y + 1)) || cell.dissolves (old (x, y + 1))) then
          if cell.dissolves (old (x, y + 1)) then
            some ((new.set (x, y) none).set (x, y + 1) none, rng)
          else
            some (((new.set (x, y) (old (x, y + 1))).set (x, y + 1) (some cell)), rng)
        -- Extinguish fire
        else if cell.falls &&
            (match old (x, y + 1) with
             | some c => c.material == MaterialG.Fire
             | none => false) then
          let new1 := new.set (x, y) none
          some (if !cell.flammable then new1.set (x, y + 1) (some cell) else new1, rng)
        else
          -- Dissolve in acid (no continue in the source: the buffer is
          -- updated and control falls through to the slide rule)
          let new1 :=
            if cell.falls &&
               (match old (x, y + 1) with
                | some c => c.dissolves (some cell)
                | none => false) then
              (new.set (x, y) none).set (x, y + 1) none
            else new
          afterFallG W H old new1 rng x y cell
      else
        some (new, rng)

/-- One tick of the src/grid.rs engine over an injected visit order. -/
def tickGridG (W H : Nat) (old : GridG) (order : List (Nat × Nat)) (rng : Rng) :
    Option (GridG × Rng) :=
  order.foldlM (tickStepG W H old) (old, rng)

theorem GridG.setG_self (g : GridG) (p : Nat × Nat) (v : Option CellG) :
    (g.set p v) p = v := by simp [GridG.set]

theorem GridG.setG_ne (g : GridG) (p q : Nat × Nat) (v : Option CellG) (h : q ≠ p) :
    (g.set p v) q = g q := by simp [GridG.set, h]

/-- Visiting a snapshot-empty coordinate changes nothing (src/grid.rs
engine). -/
theorem tickStepG_not_occupied (W H : Nat) (old : GridG) (g : GridG) (r : Rng)
    (p : Nat × Nat) (h : old p = none) : tickStepG W H old (g, r) p = some (g, r) := by
  simp [tickStepG, h]

/-- Folding over coordinates whose steps all leave any state unchanged. -/
theorem foldlM_tickStepG_stable (W H : Nat) (old : GridG) (l : List (Nat × Nat))
    (hsteps : ∀ p ∈ l, ∀ (g : GridG) (r : Rng), tickStepG W H old (g, r) p = some (g, r)) :
    ∀ (g : GridG) (r : Rng), List.foldlM (tickStepG W H old) (g, r) l = some (g, r) := by
  induction l with
  | nil => intro g r; rfl
  | cons a t ih =>
    intro g r
    rw [List.foldlM_cons, hsteps a (by simp) g r]
    exact ih (fun p hp g2 r2 => hsteps p (by simp [hp]) g2 r2) g r

/-- Composing one successful step into a fold (src/grid.rs engine). -/
theorem foldlM_tickStepG_cons (W H : Nat) (old : GridG) (st st2 : GridG × Rng)
    (a : Nat × Nat) (l : List (Nat × Nat)) (h : tickStepG W H old st a = some st2) :
    List.foldlM (tickStepG W H old) st (a :: l) =
      List.foldlM (tickStepG W H old) st2 l := by
  rw [List.foldlM_cons, h]
  rfl

/-- An Acid cell of the src/grid.rs engine. -/
def acidCellG : CellG := ⟨CellIdG.Acid, none⟩

/-- A Wood cell of the src/grid.rs engine. -/
def woodCellG : CellG := ⟨CellIdG.Wood, none⟩

/-- Claim C6 counterexample configuration: Acid above Acid at the left
edge, with Wood in the adjacent column — the lower Wood cell is the
diagonal-below non-Acid neighbour of the upper Acid cell. -/
def gridC6x : GridG := fun p =>
  if p = (0, 178) then some acidCellG
  else if p = (0, 179) then some acidCellG
  else if p = (1, 178) then some woodCellG
  else if p = (1, 179) then some woodCellG
  else none

/-- Successor of the counterexample: the upper acid dissolves the
lateral Wood through gap filling and itself; the diagonal-below Wood
survives. -/
def resC6x : GridG := (gridC6x.set (0, 178) none).set (1, 178) none

/-- A full shuffle visiting the upper Acid cell first. -/
def orderC6x : List (Nat × Nat) := (0, 178) :: (allCoords 320 180).filter (notIn [(0, 178)])

theorem gridC6x_acid_step (r : Rng) :
    tickStepG 320 180 gridC6x (gridC6x, r) (0, 178) = some (resC6x, r) := rfl

theorem gridC6x_lowacid_step (g : GridG) (r : Rng) :
    tickStepG 320 180 gridC6x (g, r) (0, 179) = some (g, r) := rfl

theorem gridC6x_upwood_step (g : GridG) (r : Rng) :
    tickStepG 320 180 gridC6x (g, r) (1, 178) = some (g, r) := rfl

theorem gridC6x_lowwood_step (g : GridG) (r : Rng) :
    tickStepG 320 180 gridC6x (g, r) (1, 179) = some (g, r) := rfl

theorem gridC6x_support (p : Nat × Nat) (h1 : p ≠ (0, 178)) (h2 : p ≠ (0, 179))
    (h3 : p ≠ (1, 178)) (h4 : p ≠ (1, 179)) : gridC6x p = none := by
  simp [gridC6x, h1, h2, h3, h4]

/-- Claim C6, counterexample: an Acid cell whose diagonal-below
neighbour holds a non-Acid material (Wood) does not leave that victim
slot empty after one tick — here the acid above another Acid cell
cannot fall-dissolve, its slide is blocked by the lateral Wood, its gap
filling dissolves the lateral Wood instead, and the diagonal-below Wood
survives the full tick (visit order: a permutation of all
coordinates). -/
theorem C6_counterexample :
    orderC6x.Perm (allCoords 320 180) ∧
    tickGridG 320 180 gridC6x orderC6x [] = some (resC6x, []) ∧
    gridC6x (0, 178) = some acidCellG ∧
    gridC6x (1, 179) = some woodCellG ∧
    resC6x (1, 179) = some woodCellG := by
  refine ⟨?_, ?_, rfl, rfl, rfl⟩
  · refine perm_front_filter [(0, 178)] (allCoords 320 180) (nodup_allCoords 320 180)
      (by simp) ?_
    intro a ha
    simp only [List.mem_singleton] at ha
    subst ha
    exact (mem_allCoords 320 180 (0, 178)).2 (by norm_num)
  · show List.foldlM (tickStepG 320 180 gridC6x) (gridC6x, [])
      ((0, 178) :: (allCoords 320 180).filter (notIn [(0, 178)])) = _
    rw [foldlM_tickStepG_cons 320 180 gridC6x _ _ _ _ (gridC6x_acid_step [])]
    refine foldlM_tickStepG_stable 320 180 gridC6x _ ?_ resC6x []
    intro p hp g r
    have hn := (List.mem_filter.1 hp).2
    simp only [notIn, List.contains_cons, Bool.not_or, Bool.and_eq_true,
      Bool.not_eq_true', beq_eq_false_iff_ne] at hn
    rcases hn with ⟨hn1, -⟩
    by_cases h2 : p = (0, 179)
    · subst h2; exact gridC6x_lowacid_step g r
    by_cases h3 : p = (1, 178)
    · subst h3; exact gridC6x_upwood_step g r
    by_cases h4 : p = (1, 179)
    · subst h4; exact gridC6x_lowwood_step g r
    · exact tickStepG_not_occupied 320 180 gridC6x g r p (gridC6x_support p hn1 h2 h3 h4)

/-- Amended C6 configuration: an Acid cell directly above a single
non-Acid cell sitting on the bottom row, nothing else occupied. -/
def gridC6a (vid : CellIdG) (vlife : Option Nat) : GridG := fun p =>
  if p = (7, 178) then some acidCellG
  else if p = (7, 179) then some ⟨vid, vlife⟩
  else none

theorem gridC6a_acid_step (vid : CellIdG) (vlife : Option Nat) (hvid : vid ≠ CellIdG.Acid)
    (g : GridG) (r : Rng) :
    tickStepG 320 180 (gridC6a vid vlife) (g, r) (7, 178) =
      some ((g.set (7, 178) none).set (7, 179) none, r) := by
  cases vid
  case Acid => exact absurd rfl hvid
  all_goals rfl

theorem gridC6a_victim_step (vid : CellIdG) (vlife : Option Nat) (g : GridG) (r : Rng) :
    tickStepG 320 180 (gridC6a vid vlife) (g, r) (7, 179) = some (g, r) ∨
    tickStepG 320 180 (gridC6a vid vlife) (g, r) (7, 179) = some (g.set (7, 179) none, r) := by
  rcases vlife with _ | k
  · left
    cases vid <;> rfl
  · by_cases hk : (k + 255) % 256 = 0
    · right
      cases vid <;> simp [tickStepG, gridC6a, decLifeG, hk]
    · left
      cases vid <;>
        simp [tickStepG, gridC6a, decLifeG, hk, acidCellG, CellG.sinks_under, CellG.material]

theorem gridC6a_support (vid : CellIdG) (vlife : Option Nat) (p : Nat × Nat)
    (h1 : p ≠ (7, 178)) (h2 : p ≠ (7, 179)) : gridC6a vid vlife p = none := by
  simp [gridC6a, h1, h2]

theorem gridC6a_cleared_preserved (vid : CellIdG) (vlife : Option Nat)
    (hvid : vid ≠ CellIdG.Acid) :
    ∀ (l : List (Nat × Nat)) (g : GridG) (r : Rng),
      g (7, 178) = none → g (7, 179) = none →
      ∃ g2, List.foldlM (tickStepG 320 180 (gridC6a vid vlife)) (g, r) l = some (g2, r) ∧
        g2 (7, 178) = none ∧ g2 (7, 179) = none := by
  intro l
  induction l with
  | nil => exact fun g r h1 h2 => ⟨g, rfl, h1, h2⟩
  | cons a t ih =>
    intro g r h1 h2
    by_cases ha : a = (7, 178)
    · subst ha
      rw [foldlM_tickStepG_cons 320 180 _ _ _ _ _ (gridC6a_acid_step vid vlife hvid g r)]
      exact ih _ r (by simp [GridG.set]) (by simp [GridG.set])
    by_cases hb : a = (7, 179)
    · subst hb
      rcases gridC6a_victim_step vid vlife g r with hs | hs
      · rw [foldlM_tickStepG_cons 320 180 _ _ _ _ _ hs]
        exact ih g r h1 h2
      · rw [foldlM_tickStepG_cons 320 180 _ _ _ _ _ hs]
        exact ih _ r (by simp [GridG.set, h1]) (by simp [GridG.set])
    · rw [foldlM_tickStepG_cons 320 180 _ _ _ _ _
        (tickStepG_not_occupied 320 180 _ g r a (gridC6a_support vid vlife a ha hb))]
      exact ih g r h1 h2

/-- Claim C6 as amended: an Acid cell directly above a non-Acid cell
resting on the bottom row dissolves on contact — after one tick (any
visit order reaching the acid, any random stream) both the acid slot
and the victim slot are empty; and the dissolves relation never holds
between two Acid cells, so Acid never dissolves Acid.  (The claimed
guarantee does not extend to diagonal-below victims: see the
counterexample.) -/
theorem C6_amended :
    (∀ (vid : CellIdG) (vlife : Option Nat), vid ≠ CellIdG.Acid →
      ∀ (order : List (Nat × Nat)) (r : Rng), (7, 178) ∈ order →
        ∃ g2, tickGridG 320 180 (gridC6a vid vlife) order r = some (g2, r) ∧
          g2 (7, 178) = none ∧ g2 (7, 179) = none) ∧
    (∀ l1 l2 : Option Nat,
      CellG.dissolves ⟨CellIdG.Acid, l1⟩ (some ⟨CellIdG.Acid, l2⟩) = false) := by
  constructor
  · intro vid vlife hvid order r hmem
    unfold tickGridG
    have hgen : ∀ (l : List (Nat × Nat)) (g : GridG), (7, 178) ∈ l →
        ∃ g2, List.foldlM (tickStepG 320 180 (gridC6a vid vlife)) (g, r) l = some (g2, r) ∧
          g2 (7, 178) = none ∧ g2 (7, 179) = none := by
      intro l
      induction l with
      | nil => intro g hm; cases hm
      | cons a t ih =>
        intro g hm
        by_cases ha : a = (7, 178)
        · subst ha
          rw [foldlM_tickStepG_cons 320 180 _ _ _ _ _ (gridC6a_acid_step vid vlife hvid g r)]
          exact gridC6a_cleared_preserved vid vlife hvid t _ r
            (by simp [GridG.set]) (by simp [GridG.set])
        · have hmt : (7, 178) ∈ t := by
            rcases List.mem_cons.1 hm with h | h
            · exact absurd h.symm ha
            · exact h
          by_cases hb : a = (7, 179)
          · subst hb
            rcases gridC6a_victim_step vid vlife g r with hs | hs
            · rw [foldlM_tickStepG_cons 320 180 _ _ _ _ _ hs]
              exact ih _ hmt
            · rw [foldlM_tickStepG_cons 320 180 _ _ _ _ _ hs]
              exact ih _ hmt
          · rw [foldlM_tickStepG_cons 320 180 _ _ _ _ _
              (tickStepG_not_occupied 320 180 _ g r a (gridC6a_support vid vlife a ha hb))]
            exact ih g hmt
    exact hgen order (gridC6a vid vlife) hmem
  · intro l1 l2
    rfl

/-- Witness for the amended C6: an Acid cell above a Wood cell clears
both slots in one concrete tick, and Acid never dissolves Acid. -/
theorem C6_amended_witness :
    (∃ g2, tickGridG 320 180 (gridC6a CellIdG.Wood none) [(7, 178)] [] = some (g2, []) ∧
      g2 (7, 178) = none ∧ g2 (7, 179) = none) ∧
    CellG.dissolves ⟨CellIdG.Acid, none⟩ (some ⟨CellIdG.Acid, none⟩) = false :=
  ⟨C6_amended.1 CellIdG.Wood none (by simp) [(7, 178)] [] (by simp),
    C6_amended.2 none none⟩
